import Mathlib

/-!
Verification of the seating-optimization core (browser `optimizer.js` and the
server-side optimizer engine).

The JS classes are embedded shallowly: the venue, attendee index, fitness
evaluator, solution generators, genetic operators, simulated annealer and the
driver state updates become Lean functions over lists and exact arithmetic
(rationals where the source works with bounded decimals, reals where the source
takes square roots).  Calls to the RNG (`Math.random`) are turned into explicit
parameters carrying the already-floored outcome, constrained exactly to the
range the source expression can produce.
-/

namespace SeatOpt

/-- One seat of the venue matrix, as pushed by `setVenue`.  The source also
precomputes `distanceToStage` on the seat record; that field is irrational, so
it is modelled by the function `distanceToStage` below instead of a stored
field (the value is determined by `row`, `col` and the venue). -/
structure Seat where
  row : Nat
  col : Nat
  isVip : Bool
  position : Nat
  deriving DecidableEq, Repr

/-- An attendee after `setAttendees` has normalized it (priority defaulted). -/
structure Attendee where
  type : String
  group : Option String
  preference : String
  priority : Rat
  deriving DecidableEq

/-- The four fitness-component weights held in `config.weights`. -/
structure Weights where
  friendProximity : Rat
  vipPlacement : Rat
  groupCohesion : Rat
  stageDistance : Rat
  deriving DecidableEq

/-- The seat matrix built by `setVenue(rows, cols, vipRows)`: a row-major list
of `rows * cols` seats, seat `r*cols + c` having row `r` and column `c`. -/
def venueSeats (rows cols vipRows : Nat) : List Seat :=
  (List.range rows).flatMap fun r =>
    (List.range cols).map fun c =>
      { row := r, col := c, isVip := decide (r < vipRows), position := r * cols + c }

/-- Default seat used to totalize out-of-range seat lookups (the source would
crash on `undefined.row`; every theorem below has hypotheses that keep all
lookups in range). -/
def dummySeat : Seat := { row := 0, col := 0, isVip := false, position := 0 }

/-- `this.venue.seats[p]`. -/
def seatAt (rows cols vipRows p : Nat) : Seat :=
  (venueSeats rows cols vipRows).getD p dummySeat

/-- `getSeatDistance`: Manhattan distance between two seats. -/
def getSeatDistance (s1 s2 : Seat) : Nat :=
  ((s1.row : Int) - s2.row).natAbs + ((s1.col : Int) - s2.col).natAbs

/-- Euclidean `distanceToStage` precomputed by `setVenue` for a seat. -/
noncomputable def distanceToStage (cols : Nat) (s : Seat) : Real :=
  Real.sqrt (((s.row : Real) + 1) ^ 2 + ((s.col : Real) - (cols : Real) / 2) ^ 2)

/-- `maxVenueDist` of `calculateFitness`. -/
noncomputable def maxVenueDist (rows cols : Nat) : Real :=
  Real.sqrt (((rows : Real) + 1) ^ 2 + ((cols : Real) / 2) ^ 2)

/-- Append attendee index `idx` to the member list of group `g`, creating the
group at the end of the list on first sight (JS `Map` insertion order). -/
def addToGroups (gs : List (String × List Nat)) (g : String) (idx : Nat) :
    List (String × List Nat) :=
  match gs with
  | [] => [(g, [idx])]
  | (name, mem) :: rest =>
      if name = g then (name, mem ++ [idx]) :: rest
      else (name, mem) :: addToGroups rest g idx

/-- The `groups` map built by `setAttendees`: group tag to member indices, in
insertion order. -/
def groupsOf (attendees : List Attendee) : List (String × List Nat) :=
  attendees.enum.foldl
    (fun gs p =>
      match p.2.group with
      | none => gs
      | some g => addToGroups gs g p.1)
    []

/-- The `friendships` map built by `setAttendees`: for each grouped attendee,
the other members of its group.  Group member lists are disjoint (every
attendee carries at most one group tag), so each key occurs once. -/
def friendshipsOf (attendees : List Attendee) : List (Nat × List Nat) :=
  (groupsOf attendees).flatMap fun gm =>
    gm.2.map fun m1 => (m1, gm.2.filter fun m2 => m2 ≠ m1)

/-- JS `[a[i], a[j]] = [a[j], a[i]]`: both reads happen before both writes. -/
def listSwap (l : List Nat) (i j : Nat) : List Nat :=
  (l.set i (l.getD j 0)).set j (l.getD i 0)

theorem listSwap_length (l : List Nat) (i j : Nat) :
    (listSwap l i j).length = l.length := by
  simp [listSwap]

theorem cons_set_perm (t : List Nat) (j : Nat) (x : Nat) (hj : j < t.length) :
    (t.getD j 0 :: t.set j x).Perm (x :: t) := by
  induction t generalizing j with
  | nil => simp at hj
  | cons y s ih =>
      cases j with
      | zero => simpa using List.Perm.swap x y s
      | succ j =>
          have hj' : j < s.length := by simpa using hj
          have step : (s.getD j 0 :: y :: s.set j x).Perm (y :: s.getD j 0 :: s.set j x) :=
            List.Perm.swap y (s.getD j 0) (s.set j x)
          have ihs : (y :: (s.getD j 0 :: s.set j x)).Perm (y :: (x :: s)) :=
            List.Perm.cons y (ih j hj')
          have fin : (y :: x :: s).Perm (x :: y :: s) := List.Perm.swap x y s
          simpa using (step.trans ihs).trans fin

theorem listSwap_perm (l : List Nat) (i j : Nat)
    (hi : i < l.length) (hj : j < l.length) : (listSwap l i j).Perm l := by
  induction l generalizing i j with
  | nil => simp at hi
  | cons x t ih =>
      cases i with
      | zero =>
          cases j with
          | zero => simp [listSwap]
          | succ j =>
              have hj' : j < t.length := by simpa using hj
              have : listSwap (x :: t) 0 (j + 1) = t.getD j 0 :: t.set j x := by
                simp [listSwap, List.getD_cons_succ]
              rw [this]
              exact cons_set_perm t j x hj'
      | succ i =>
          cases j with
          | zero =>
              have hi' : i < t.length := by simpa using hi
              have : listSwap (x :: t) (i + 1) 0 = t.getD i 0 :: t.set i x := by
                simp [listSwap, List.getD_cons_succ]
              rw [this]
              exact cons_set_perm t i x hi'
          | succ j =>
              have hi' : i < t.length := by simpa using hi
              have hj' : j < t.length := by simpa using hj
              have : listSwap (x :: t) (i + 1) (j + 1) = x :: listSwap t i j := by
                simp [listSwap, List.getD_cons_succ]
              rw [this]
              exact List.Perm.cons x (ih i j hi' hj')

/-- The seat assigned to attendee `idx` by chromosome `chrom`
(`this.venue.seats[chromosome[idx]]`). -/
def seatOf (rows cols vipRows : Nat) (chrom : List Nat) (idx : Nat) : Seat :=
  seatAt rows cols vipRows (chrom.getD idx 0)

/-- Per-friend-pair contribution of the friend-proximity score. -/
def friendContrib (d : Nat) : Rat :=
  if d = 1 then 10
  else if d = 2 then 7
  else if d ≤ 4 then 4
  else max 0 (2 - (d : Rat) * (1 / 10))

/-- Accumulated `friendProximityScore`. -/
def friendProximityScore (rows cols vipRows : Nat) (attendees : List Attendee)
    (chrom : List Nat) : Rat :=
  ((friendshipsOf attendees).map fun pr =>
    (pr.2.map fun f =>
      friendContrib (getSeatDistance (seatOf rows cols vipRows chrom pr.1)
        (seatOf rows cols vipRows chrom f))).sum).sum

/-- Accumulated `maxFriendScore` (10 per directed friendship pair). -/
def maxFriendScore (attendees : List Attendee) : Rat :=
  ((friendshipsOf attendees).map fun pr => (pr.2.map fun _ => (10 : Rat)).sum).sum

/-- Accumulated `vipPlacementScore`. -/
def vipPlacementScore (rows cols vipRows : Nat) (attendees : List Attendee)
    (chrom : List Nat) : Rat :=
  (attendees.enum.map fun p =>
    if p.2.type = "vip" then
      (if (seatOf rows cols vipRows chrom p.1).isVip then (20 : Rat)
       else max 0 (10 - ((seatOf rows cols vipRows chrom p.1).row : Rat) * 2))
    else 0).sum

/-- Accumulated `maxVipScore` (20 per VIP attendee). -/
def maxVipScore (attendees : List Attendee) : Rat :=
  (attendees.map fun a => if a.type = "vip" then (20 : Rat) else 0).sum

/-- Accumulated `maxDistanceScore` (`10 * priority/10` per attendee). -/
def maxDistanceScore (attendees : List Attendee) : Rat :=
  (attendees.map fun a => 10 * (a.priority / 10)).sum

/-- Accumulated `stageDistanceScore` (priority-weighted, Euclidean). -/
noncomputable def stageDistanceScoreRaw (rows cols vipRows : Nat)
    (attendees : List Attendee) (chrom : List Nat) : Real :=
  (attendees.enum.map fun p =>
    max 0 ((1 - distanceToStage cols (seatOf rows cols vipRows chrom p.1) /
      maxVenueDist rows cols) * ((10 * (p.2.priority / 10) : Rat) : Real))).sum

/-- Comparator used to sort a group member seat list by row then column. -/
def seatLe (s t : Seat) : Bool :=
  s.row < t.row || (s.row = t.row && s.col ≤ t.col)

/-- `cohesionPoints` of one group: every unordered pair of member seats adds
2 at Manhattan distance 1 and 1 at distance at most 2. -/
def cohesionPoints : List Seat → Rat
  | [] => 0
  | s :: rest =>
      (rest.map fun t =>
        if getSeatDistance s t = 1 then (2 : Rat)
        else if getSeatDistance s t ≤ 2 then 1 else 0).sum + cohesionPoints rest

/-- Capped cohesion contribution of one group with member list `members`. -/
def groupContrib (rows cols vipRows : Nat) (chrom : List Nat)
    (members : List Nat) : Rat :=
  let m : Rat := (members.length : Rat)
  let seats := (members.map fun idx => seatOf rows cols vipRows chrom idx).mergeSort seatLe
  min (m * 10) (cohesionPoints seats / max 1 ((m - 1) * 2) * (m * 10))

/-- Accumulated `groupCohesionScore` (groups of at most one member skipped). -/
def groupCohesionScore (rows cols vipRows : Nat) (attendees : List Attendee)
    (chrom : List Nat) : Rat :=
  ((groupsOf attendees).map fun gm =>
    if gm.2.length ≤ 1 then 0
    else groupContrib rows cols vipRows chrom gm.2).sum

/-- Accumulated `maxGroupScore` (`10 * members` per multi-member group). -/
def maxGroupScore (attendees : List Attendee) : Rat :=
  ((groupsOf attendees).map fun gm =>
    if gm.2.length ≤ 1 then 0 else ((gm.2.length : Rat) * 10)).sum

/-- Normalized friend-proximity sub-score (`1` when the maximum is zero). -/
def normFriend (rows cols vipRows : Nat) (attendees : List Attendee)
    (chrom : List Nat) : Rat :=
  if 0 < maxFriendScore attendees then
    friendProximityScore rows cols vipRows attendees chrom / maxFriendScore attendees
  else 1

/-- Normalized VIP-placement sub-score. -/
def normVip (rows cols vipRows : Nat) (attendees : List Attendee)
    (chrom : List Nat) : Rat :=
  if 0 < maxVipScore attendees then
    vipPlacementScore rows cols vipRows attendees chrom / maxVipScore attendees
  else 1

/-- Normalized group-cohesion sub-score. -/
def normGroup (rows cols vipRows : Nat) (attendees : List Attendee)
    (chrom : List Nat) : Rat :=
  if 0 < maxGroupScore attendees then
    groupCohesionScore rows cols vipRows attendees chrom / maxGroupScore attendees
  else 1

/-- Normalized stage-distance sub-score. -/
noncomputable def normStage (rows cols vipRows : Nat) (attendees : List Attendee)
    (chrom : List Nat) : Real :=
  if 0 < maxDistanceScore attendees then
    stageDistanceScoreRaw rows cols vipRows attendees chrom /
      ((maxDistanceScore attendees : Rat) : Real)
  else 1

/-- The record returned by `calculateFitness`. -/
structure Fitness where
  total : Real
  friendProximity : Real
  vipPlacement : Real
  groupCohesion : Real
  stageDistance : Real

/-- `calculateFitness` of the browser optimizer: four normalized sub-scores
and their weighted average. -/
noncomputable def calculateFitness (rows cols vipRows : Nat)
    (attendees : List Attendee) (w : Weights) (chrom : List Nat) : Fitness :=
  let nf : Real := (normFriend rows cols vipRows attendees chrom : Rat)
  let nv : Real := (normVip rows cols vipRows attendees chrom : Rat)
  let ng : Real := (normGroup rows cols vipRows attendees chrom : Rat)
  let nd : Real := normStage rows cols vipRows attendees chrom
  let totalWeight : Rat :=
    w.friendProximity + w.vipPlacement + w.groupCohesion + w.stageDistance
  { total := (nf * (w.friendProximity : Real) + nv * (w.vipPlacement : Real) +
      ng * (w.groupCohesion : Real) + nd * (w.stageDistance : Real)) /
      (totalWeight : Real)
    friendProximity := nf
    vipPlacement := nv
    groupCohesion := ng
    stageDistance := nd }

namespace Server

/-!
The server-side optimizer engine carries its own copies of `setVenue`,
`setAttendees`, `getSeatDistance` and `calculateFitness`.  They are embedded
here a second time, translated from the server source text, so that the
equivalence of the two fitness evaluators is a statement about two separately
obtained definitions.
-/

/-- Seat matrix built by the server `setVenue`. -/
def venueSeats (rows cols vipRows : Nat) : List Seat :=
  (List.range rows).flatMap fun r =>
    (List.range cols).map fun c =>
      { row := r, col := c, isVip := decide (r < vipRows), position := r * cols + c }

/-- Server-side seat lookup. -/
def seatAt (rows cols vipRows p : Nat) : Seat :=
  (venueSeats rows cols vipRows).getD p dummySeat

/-- Server `getSeatDistance` (Manhattan). -/
def getSeatDistance (s1 s2 : Seat) : Nat :=
  ((s1.row : Int) - s2.row).natAbs + ((s1.col : Int) - s2.col).natAbs

/-- Server `groups` map. -/
def groupsOf (attendees : List Attendee) : List (String × List Nat) :=
  attendees.enum.foldl
    (fun gs p =>
      match p.2.group with
      | none => gs
      | some g => addToGroups gs g p.1)
    []

/-- Server `friendships` map. -/
def friendshipsOf (attendees : List Attendee) : List (Nat × List Nat) :=
  (groupsOf attendees).flatMap fun gm =>
    gm.2.map fun m1 => (m1, gm.2.filter fun m2 => m2 ≠ m1)

/-- Server seat of attendee `idx`. -/
def seatOf (rows cols vipRows : Nat) (chrom : List Nat) (idx : Nat) : Seat :=
  seatAt rows cols vipRows (chrom.getD idx 0)

/-- Server per-group pair loop of the cohesion score. -/
def cohesionPoints : List Seat → Rat
  | [] => 0
  | s :: rest =>
      (rest.map fun t =>
        if getSeatDistance s t = 1 then (2 : Rat)
        else if getSeatDistance s t ≤ 2 then 1 else 0).sum + cohesionPoints rest

/-- Server `calculateFitness`, one definition covering the whole method body
of the server engine source. -/
noncomputable def calculateFitness (rows cols vipRows : Nat)
    (attendees : List Attendee) (w : Weights) (chrom : List Nat) : Fitness :=
  let rawFriend : Rat :=
    ((friendshipsOf attendees).map fun pr =>
      (pr.2.map fun f =>
        let d := getSeatDistance (seatOf rows cols vipRows chrom pr.1)
          (seatOf rows cols vipRows chrom f)
        if d = 1 then (10 : Rat)
        else if d = 2 then 7
        else if d ≤ 4 then 4
        else max 0 (2 - (d : Rat) * (1 / 10))).sum).sum
  let maxFriend : Rat :=
    ((friendshipsOf attendees).map fun pr => (pr.2.map fun _ => (10 : Rat)).sum).sum
  let rawVip : Rat :=
    (attendees.enum.map fun p =>
      if p.2.type = "vip" then
        (if (seatOf rows cols vipRows chrom p.1).isVip then (20 : Rat)
         else max 0 (10 - ((seatOf rows cols vipRows chrom p.1).row : Rat) * 2))
      else 0).sum
  let maxVip : Rat :=
    (attendees.map fun a => if a.type = "vip" then (20 : Rat) else 0).sum
  let maxDist : Rat := (attendees.map fun a => 10 * (a.priority / 10)).sum
  let rawStage : Real :=
    (attendees.enum.map fun p =>
      max 0 ((1 - distanceToStage cols (seatOf rows cols vipRows chrom p.1) /
        maxVenueDist rows cols) * ((10 * (p.2.priority / 10) : Rat) : Real))).sum
  let rawGroup : Rat :=
    ((groupsOf attendees).map fun gm =>
      if gm.2.length ≤ 1 then 0
      else
        let m : Rat := (gm.2.length : Rat)
        let seats := (gm.2.map fun idx => seatOf rows cols vipRows chrom idx).mergeSort seatLe
        min (m * 10) (cohesionPoints seats / max 1 ((m - 1) * 2) * (m * 10))).sum
  let maxGroup : Rat :=
    ((groupsOf attendees).map fun gm =>
      if gm.2.length ≤ 1 then 0 else ((gm.2.length : Rat) * 10)).sum
  let nf : Real := ((if 0 < maxFriend then rawFriend / maxFriend else 1 : Rat) : Real)
  let nv : Real := ((if 0 < maxVip then rawVip / maxVip else 1 : Rat) : Real)
  let ng : Real := ((if 0 < maxGroup then rawGroup / maxGroup else 1 : Rat) : Real)
  let nd : Real := if 0 < maxDist then rawStage / ((maxDist : Rat) : Real) else 1
  let totalWeight : Rat :=
    w.friendProximity + w.vipPlacement + w.groupCohesion + w.stageDistance
  { total := (nf * (w.friendProximity : Real) + nv * (w.vipPlacement : Real) +
      ng * (w.groupCohesion : Real) + nd * (w.stageDistance : Real)) /
      (totalWeight : Real)
    friendProximity := nf
    vipPlacement := nv
    groupCohesion := ng
    stageDistance := nd }

end Server

/-- Venue configuration as set by `setVenue`. -/
structure Venue where
  rows : Nat
  cols : Nat
  vipRows : Nat
  deriving DecidableEq

/-- A valid assignment: `n` pairwise-distinct seat positions in `[0, rows*cols)`. -/
def ValidAssignment (rows cols n : Nat) (chrom : List Nat) : Prop :=
  chrom.length = n ∧ chrom.Nodup ∧ ∀ x ∈ chrom, x < rows * cols

instance (rows cols n : Nat) (chrom : List Nat) :
    Decidable (ValidAssignment rows cols n chrom) := by
  unfold ValidAssignment; infer_instance

/-- The synchronous entry check of `optimize`: it throws exactly when the
venue is unset or the attendee list is empty.  The source performs no other
check at entry (in particular none against the seat count). -/
def optimizeEntryCheck (venue : Option Venue) (attendees : List Attendee) :
    Except String Unit :=
  match venue with
  | none => .error "Venue/Attendees not set"
  | some _ => if attendees.length = 0 then .error "Venue/Attendees not set" else .ok ()

/-- `updateWeights(friend, vip, group, distance)`: divides each weight by the
total and stores the result.  The method contains no validation and no throw,
so it always returns; on an all-zero input the divisions are zero-by-zero
(`NaN` in JS, `0` in the exact rational model). -/
def updateWeights (friend vip group distance : Rat) : Except String Weights :=
  let total := friend + vip + group + distance
  .ok { friendProximity := friend / total
        vipPlacement := vip / total
        groupCohesion := group / total
        stageDistance := distance / total }

/-- The running-best update of one generation of `optimize`: the global best
total is replaced by a candidate exactly when the candidate is strictly
larger. -/
noncomputable def bestAcc (best : Real) (vals : List Real) : Real :=
  vals.foldl (fun b v => if b < v then v else b) best

/-- The `fitnessHistory` produced by the generation loop of `optimize` from an
initial best total `best0` and the per-generation lists of candidate totals:
each generation updates the running best and then appends it. -/
noncomputable def fitnessHistory (best0 : Real) (gens : List (List Real)) :
    List Real :=
  (gens.foldl
    (fun acc vals =>
      let b := bestAcc acc.1 vals
      (b, acc.2 ++ [b]))
    (best0, [])).2

theorem bestAcc_le (best : Real) (vals : List Real) : best ≤ bestAcc best vals := by
  induction vals generalizing best with
  | nil => simp [bestAcc]
  | cons v t ih =>
      have step : best ≤ if best < v then v else best := by
        split
        · exact le_of_lt (by assumption)
        · exact le_refl best
      calc best ≤ if best < v then v else best := step
        _ ≤ bestAcc (if best < v then v else best) t := ih _
        _ = bestAcc best (v :: t) := by simp [bestAcc]

/-- C6: within one `optimize` call the recorded fitness history is
non-decreasing, whatever totals each generation produces, because the global
best is only ever replaced by a strictly larger total. -/
theorem fitnessHistory_monotone (best0 : Real) (gens : List (List Real)) :
    List.Chain' (· ≤ ·) (fitnessHistory best0 gens) := by
  suffices h : ∀ (acc : Real × List Real),
      List.Chain' (· ≤ ·) acc.2 → (∀ x ∈ acc.2.getLast?, x ≤ acc.1) →
      List.Chain' (· ≤ ·) (gens.foldl
        (fun acc vals =>
          let b := bestAcc acc.1 vals
          (b, acc.2 ++ [b])) acc).2 by
    exact h (best0, []) (by simp) (by simp)
  induction gens with
  | nil => intro acc h1 _; simpa using h1
  | cons g rest ih =>
      intro acc h1 h2
      simp only [List.foldl_cons]
      apply ih
      · rw [List.chain'_append]
        refine ⟨h1, by simp, ?_⟩
        intro x hx y hy
        simp only [List.head?_cons, Option.mem_some_iff] at hy
        subst hy
        exact le_trans (h2 x hx) (bestAcc_le _ _)
      · intro x hx
        simp only [List.getLast?_concat, Option.mem_some_iff] at hx
        subst hx
        exact le_refl _

/-- A regular ungrouped attendee with the default priority. -/
def regularAttendee : Attendee :=
  { type := "regular", group := none, preference := "any", priority := 5 }

/-- C2 counterexample: with a 1-by-1 venue and two attendees (so N = 2 exceeds
the seat count R*C = 1) the synchronous entry check of `optimize` does not
raise: the source tests only that the venue is set and the attendee list is
non-empty, never the capacity. -/
theorem optimize_entry_no_capacity_check :
    optimizeEntryCheck (some { rows := 1, cols := 1, vipRows := 1 })
      [regularAttendee, regularAttendee] = .ok () ∧ 1 * 1 < 2 := by
  constructor
  · rfl
  · decide

/-- C2 amended: `optimize` raises synchronously at entry exactly when the
venue is unset or the attendee list is empty; attendee counts exceeding the
seat capacity are not rejected. -/
theorem optimize_entry_check_iff (venue : Option Venue) (attendees : List Attendee) :
    optimizeEntryCheck venue attendees = .ok () ↔ venue ≠ none ∧ attendees ≠ [] := by
  cases venue with
  | none => simp [optimizeEntryCheck]
  | some v =>
      by_cases h : attendees.length = 0
      · simp [optimizeEntryCheck, h, List.length_eq_zero.mp h]
      · simp [optimizeEntryCheck, h]
        exact fun he => h (by simp [he])

/-- C5 counterexample: with all four weights zero, `updateWeights` returns
normally (its divisions are zero-by-zero, `NaN` in JS and `0` in the exact
model) and the next `calculateFitness` call also returns a fitness record
instead of raising; no error exists on either path. -/
theorem updateWeights_all_zero_no_error :
    updateWeights 0 0 0 0 =
      .ok { friendProximity := 0, vipPlacement := 0, groupCohesion := 0,
            stageDistance := 0 } ∧
    (calculateFitness 1 1 1 [regularAttendee]
      { friendProximity := 0, vipPlacement := 0, groupCohesion := 0,
        stageDistance := 0 } [0]).total = 0 := by
  constructor
  · simp [updateWeights]
  · simp [calculateFitness]

/-- C5 amended: `updateWeights` never raises: for every input, also an
all-zero one, it stores the four weights divided by their sum and returns. -/
theorem updateWeights_total (friend vip group distance : Rat) :
    updateWeights friend vip group distance =
      .ok { friendProximity := friend / (friend + vip + group + distance)
            vipPlacement := vip / (friend + vip + group + distance)
            groupCohesion := group / (friend + vip + group + distance)
            stageDistance := distance / (friend + vip + group + distance) } := rfl

/-- C9: the server-side and browser-side fitness evaluators are extensionally
equal: on every venue, attendee list, weight configuration and assignment the
two `calculateFitness` implementations return identical fitness records. -/
theorem server_cohesionPoints_eq : Server.cohesionPoints = cohesionPoints := by
  funext l
  induction l with
  | nil => simp [Server.cohesionPoints, cohesionPoints]
  | cons s rest ih =>
      simp [Server.cohesionPoints, cohesionPoints, ih, Server.getSeatDistance,
        getSeatDistance]

theorem calculateFitness_server_eq_browser (rows cols vipRows : Nat)
    (attendees : List Attendee) (w : Weights) (chrom : List Nat) :
    Server.calculateFitness rows cols vipRows attendees w chrom =
      calculateFitness rows cols vipRows attendees w chrom := by
  unfold Server.calculateFitness calculateFitness
  simp only [server_cohesionPoints_eq]
  rfl

theorem friendContrib_nonneg (d : Nat) : 0 ≤ friendContrib d := by
  unfold friendContrib
  split
  · norm_num
  · split
    · norm_num
    · split
      · norm_num
      · exact le_max_left 0 _

theorem friendContrib_le_ten (d : Nat) : friendContrib d ≤ 10 := by
  unfold friendContrib
  split
  · norm_num
  · split
    · norm_num
    · split
      · norm_num
      · refine max_le (by norm_num) ?_
        have h : (0 : Rat) ≤ (d : Rat) * (1 / 10) := by positivity
        linarith

theorem friendProximityScore_nonneg (rows cols vipRows : Nat)
    (attendees : List Attendee) (chrom : List Nat) :
    0 ≤ friendProximityScore rows cols vipRows attendees chrom := by
  unfold friendProximityScore
  refine List.sum_nonneg ?_
  intro x hx
  simp only [List.mem_map] at hx
  obtain ⟨pr, _, rfl⟩ := hx
  refine List.sum_nonneg ?_
  intro y hy
  simp only [List.mem_map] at hy
  obtain ⟨f, _, rfl⟩ := hy
  exact friendContrib_nonneg _

theorem friendProximityScore_le_max (rows cols vipRows : Nat)
    (attendees : List Attendee) (chrom : List Nat) :
    friendProximityScore rows cols vipRows attendees chrom ≤
      maxFriendScore attendees := by
  unfold friendProximityScore maxFriendScore
  refine List.sum_le_sum ?_
  intro pr _
  refine List.sum_le_sum ?_
  intro f _
  exact friendContrib_le_ten _

theorem normFriend_nonneg (rows cols vipRows : Nat) (attendees : List Attendee)
    (chrom : List Nat) : 0 ≤ normFriend rows cols vipRows attendees chrom := by
  unfold normFriend
  split
  · exact div_nonneg (friendProximityScore_nonneg _ _ _ _ _) (le_of_lt (by assumption))
  · norm_num

theorem normFriend_le_one (rows cols vipRows : Nat) (attendees : List Attendee)
    (chrom : List Nat) : normFriend rows cols vipRows attendees chrom ≤ 1 := by
  unfold normFriend
  split
  · exact (div_le_one (by assumption)).mpr (friendProximityScore_le_max _ _ _ _ _)
  · norm_num

theorem vipPlacementScore_nonneg (rows cols vipRows : Nat)
    (attendees : List Attendee) (chrom : List Nat) :
    0 ≤ vipPlacementScore rows cols vipRows attendees chrom := by
  unfold vipPlacementScore
  refine List.sum_nonneg ?_
  intro x hx
  simp only [List.mem_map] at hx
  obtain ⟨p, _, rfl⟩ := hx
  split
  · split
    · norm_num
    · exact le_max_left 0 _
  · norm_num

theorem vipPlacementScore_le_max (rows cols vipRows : Nat)
    (attendees : List Attendee) (chrom : List Nat) :
    vipPlacementScore rows cols vipRows attendees chrom ≤ maxVipScore attendees := by
  unfold vipPlacementScore maxVipScore
  have hrw : (attendees.map fun a => if a.type = "vip" then (20 : Rat) else 0) =
      attendees.enum.map fun p => if p.2.type = "vip" then (20 : Rat) else 0 := by
    conv_lhs => rw [← List.enum_map_snd attendees]
    rw [List.map_map]
    rfl
  rw [hrw]
  refine List.sum_le_sum ?_
  intro p _
  split
  · split
    · norm_num
    · refine max_le (by norm_num) ?_
      have h : (0 : Rat) ≤ ((seatOf rows cols vipRows chrom p.1).row : Rat) * 2 := by
        positivity
      linarith
  · norm_num

theorem normVip_nonneg (rows cols vipRows : Nat) (attendees : List Attendee)
    (chrom : List Nat) : 0 ≤ normVip rows cols vipRows attendees chrom := by
  unfold normVip
  split
  · exact div_nonneg (vipPlacementScore_nonneg _ _ _ _ _) (le_of_lt (by assumption))
  · norm_num

theorem normVip_le_one (rows cols vipRows : Nat) (attendees : List Attendee)
    (chrom : List Nat) : normVip rows cols vipRows attendees chrom ≤ 1 := by
  unfold normVip
  split
  · exact (div_le_one (by assumption)).mpr (vipPlacementScore_le_max _ _ _ _ _)
  · norm_num

theorem cohesionPoints_nonneg (seats : List Seat) : 0 ≤ cohesionPoints seats := by
  induction seats with
  | nil => simp [cohesionPoints]
  | cons s rest ih =>
      unfold cohesionPoints
      have h : 0 ≤ (rest.map fun t =>
          if getSeatDistance s t = 1 then (2 : Rat)
          else if getSeatDistance s t ≤ 2 then 1 else 0).sum := by
        refine List.sum_nonneg ?_
        intro x hx
        simp only [List.mem_map] at hx
        obtain ⟨t, _, rfl⟩ := hx
        split
        · norm_num
        · split <;> norm_num
      linarith

theorem groupContrib_nonneg (rows cols vipRows : Nat) (chrom : List Nat)
    (members : List Nat) : 0 ≤ groupContrib rows cols vipRows chrom members := by
  unfold groupContrib
  refine le_min (by positivity) ?_
  have hc : 0 ≤ cohesionPoints
      ((members.map fun idx => seatOf rows cols vipRows chrom idx).mergeSort seatLe) :=
    cohesionPoints_nonneg _
  have hd : (0 : Rat) ≤ max 1 (((members.length : Rat) - 1) * 2) := by
    have : (0 : Rat) ≤ 1 := by norm_num
    exact le_trans this (le_max_left _ _)
  positivity

theorem groupContrib_le (rows cols vipRows : Nat) (chrom : List Nat)
    (members : List Nat) :
    groupContrib rows cols vipRows chrom members ≤ (members.length : Rat) * 10 :=
  min_le_left _ _

theorem groupCohesionScore_nonneg (rows cols vipRows : Nat)
    (attendees : List Attendee) (chrom : List Nat) :
    0 ≤ groupCohesionScore rows cols vipRows attendees chrom := by
  unfold groupCohesionScore
  refine List.sum_nonneg ?_
  intro x hx
  simp only [List.mem_map] at hx
  obtain ⟨gm, _, rfl⟩ := hx
  split
  · norm_num
  · exact groupContrib_nonneg _ _ _ _ _

theorem groupCohesionScore_le_max (rows cols vipRows : Nat)
    (attendees : List Attendee) (chrom : List Nat) :
    groupCohesionScore rows cols vipRows attendees chrom ≤ maxGroupScore attendees := by
  unfold groupCohesionScore maxGroupScore
  refine List.sum_le_sum ?_
  intro gm _
  split
  · norm_num
  · have h := groupContrib_le rows cols vipRows chrom gm.2
    linarith

theorem normGroup_nonneg (rows cols vipRows : Nat) (attendees : List Attendee)
    (chrom : List Nat) : 0 ≤ normGroup rows cols vipRows attendees chrom := by
  unfold normGroup
  split
  · exact div_nonneg (groupCohesionScore_nonneg _ _ _ _ _) (le_of_lt (by assumption))
  · norm_num

theorem normGroup_le_one (rows cols vipRows : Nat) (attendees : List Attendee)
    (chrom : List Nat) : normGroup rows cols vipRows attendees chrom ≤ 1 := by
  unfold normGroup
  split
  · exact (div_le_one (by assumption)).mpr (groupCohesionScore_le_max _ _ _ _ _)
  · norm_num

theorem stageDistanceScoreRaw_nonneg (rows cols vipRows : Nat)
    (attendees : List Attendee) (chrom : List Nat) :
    0 ≤ stageDistanceScoreRaw rows cols vipRows attendees chrom := by
  unfold stageDistanceScoreRaw
  refine List.sum_nonneg ?_
  intro x hx
  simp only [List.mem_map] at hx
  obtain ⟨p, _, rfl⟩ := hx
  exact le_max_left 0 _

theorem stageDistanceScoreRaw_le_max (rows cols vipRows : Nat)
    (attendees : List Attendee) (chrom : List Nat)
    (hpri : ∀ a ∈ attendees, 0 ≤ a.priority) :
    stageDistanceScoreRaw rows cols vipRows attendees chrom ≤
      ((maxDistanceScore attendees : Rat) : Real) := by
  unfold stageDistanceScoreRaw maxDistanceScore
  have hcast : ((((attendees.map fun a => 10 * (a.priority / 10)).sum : Rat)) : Real) =
      (attendees.enum.map fun p => ((10 * (p.2.priority / 10) : Rat) : Real)).sum := by
    rw [Rat.cast_list_sum, List.map_map]
    conv_lhs => rw [← List.enum_map_snd attendees]
    rw [List.map_map]
    rfl
  rw [hcast]
  refine List.sum_le_sum ?_
  intro p hp
  have hpr : 0 ≤ p.2.priority := by
    refine hpri p.2 ?_
    have : p.2 ∈ attendees.enum.map Prod.snd := List.mem_map_of_mem Prod.snd hp
    simpa [List.enum_map_snd] using this
  have hcap : (0 : Real) ≤ ((10 * (p.2.priority / 10) : Rat) : Real) := by
    have : (0 : Rat) ≤ 10 * (p.2.priority / 10) := by positivity
    exact_mod_cast this
  refine max_le hcap ?_
  have hratio : 0 ≤ distanceToStage cols (seatOf rows cols vipRows chrom p.1) /
      maxVenueDist rows cols :=
    div_nonneg (Real.sqrt_nonneg _) (Real.sqrt_nonneg _)
  nlinarith

theorem normStage_nonneg (rows cols vipRows : Nat) (attendees : List Attendee)
    (chrom : List Nat) : 0 ≤ normStage rows cols vipRows attendees chrom := by
  unfold normStage
  split
  · refine div_nonneg (stageDistanceScoreRaw_nonneg _ _ _ _ _) ?_
    have h : (0 : Rat) < maxDistanceScore attendees := by assumption
    have := le_of_lt h
    exact_mod_cast this
  · norm_num

theorem normStage_le_one (rows cols vipRows : Nat) (attendees : List Attendee)
    (chrom : List Nat) (hpri : ∀ a ∈ attendees, 0 ≤ a.priority) :
    normStage rows cols vipRows attendees chrom ≤ 1 := by
  unfold normStage
  split
  · have h : (0 : Rat) < maxDistanceScore attendees := by assumption
    have hpos : (0 : Real) < ((maxDistanceScore attendees : Rat) : Real) := by
      exact_mod_cast h
    exact (div_le_one hpos).mpr (stageDistanceScoreRaw_le_max _ _ _ _ _ hpri)
  · norm_num

theorem calculateFitness_friendProximity (rows cols vipRows : Nat)
    (attendees : List Attendee) (w : Weights) (chrom : List Nat) :
    (calculateFitness rows cols vipRows attendees w chrom).friendProximity =
      ((normFriend rows cols vipRows attendees chrom : Rat) : Real) := rfl

theorem calculateFitness_vipPlacement (rows cols vipRows : Nat)
    (attendees : List Attendee) (w : Weights) (chrom : List Nat) :
    (calculateFitness rows cols vipRows attendees w chrom).vipPlacement =
      ((normVip rows cols vipRows attendees chrom : Rat) : Real) := rfl

theorem calculateFitness_groupCohesion (rows cols vipRows : Nat)
    (attendees : List Attendee) (w : Weights) (chrom : List Nat) :
    (calculateFitness rows cols vipRows attendees w chrom).groupCohesion =
      ((normGroup rows cols vipRows attendees chrom : Rat) : Real) := rfl

theorem calculateFitness_stageDistance (rows cols vipRows : Nat)
    (attendees : List Attendee) (w : Weights) (chrom : List Nat) :
    (calculateFitness rows cols vipRows attendees w chrom).stageDistance =
      normStage rows cols vipRows attendees chrom := rfl

theorem calculateFitness_total (rows cols vipRows : Nat)
    (attendees : List Attendee) (w : Weights) (chrom : List Nat) :
    (calculateFitness rows cols vipRows attendees w chrom).total =
      (((normFriend rows cols vipRows attendees chrom : Rat) : Real) *
          (w.friendProximity : Real) +
        ((normVip rows cols vipRows attendees chrom : Rat) : Real) *
          (w.vipPlacement : Real) +
        ((normGroup rows cols vipRows attendees chrom : Rat) : Real) *
          (w.groupCohesion : Real) +
        normStage rows cols vipRows attendees chrom * (w.stageDistance : Real)) /
      ((w.friendProximity + w.vipPlacement + w.groupCohesion + w.stageDistance :
        Rat) : Real) := rfl

/-- C3: for every valid assignment and every weight configuration with
non-negative weights of positive sum (and attendee priorities non-negative,
as the data model requires), all four normalized sub-scores and the weighted
total returned by `calculateFitness` lie in the closed interval `[0, 1]`. -/
theorem calculateFitness_bounds (rows cols vipRows : Nat)
    (attendees : List Attendee) (w : Weights) (chrom : List Nat)
    (hvalid : ValidAssignment rows cols attendees.length chrom)
    (hpri : ∀ a ∈ attendees, 0 ≤ a.priority)
    (hw1 : 0 ≤ w.friendProximity) (hw2 : 0 ≤ w.vipPlacement)
    (hw3 : 0 ≤ w.groupCohesion) (hw4 : 0 ≤ w.stageDistance)
    (hwpos : 0 < w.friendProximity + w.vipPlacement + w.groupCohesion +
      w.stageDistance) :
    (0 ≤ (calculateFitness rows cols vipRows attendees w chrom).friendProximity ∧
      (calculateFitness rows cols vipRows attendees w chrom).friendProximity ≤ 1) ∧
    (0 ≤ (calculateFitness rows cols vipRows attendees w chrom).vipPlacement ∧
      (calculateFitness rows cols vipRows attendees w chrom).vipPlacement ≤ 1) ∧
    (0 ≤ (calculateFitness rows cols vipRows attendees w chrom).groupCohesion ∧
      (calculateFitness rows cols vipRows attendees w chrom).groupCohesion ≤ 1) ∧
    (0 ≤ (calculateFitness rows cols vipRows attendees w chrom).stageDistance ∧
      (calculateFitness rows cols vipRows attendees w chrom).stageDistance ≤ 1) ∧
    (0 ≤ (calculateFitness rows cols vipRows attendees w chrom).total ∧
      (calculateFitness rows cols vipRows attendees w chrom).total ≤ 1) := by
  have hnf0 : (0 : Real) ≤ ((normFriend rows cols vipRows attendees chrom : Rat) : Real) := by
    exact_mod_cast normFriend_nonneg rows cols vipRows attendees chrom
  have hnf1 : ((normFriend rows cols vipRows attendees chrom : Rat) : Real) ≤ 1 := by
    exact_mod_cast normFriend_le_one rows cols vipRows attendees chrom
  have hnv0 : (0 : Real) ≤ ((normVip rows cols vipRows attendees chrom : Rat) : Real) := by
    exact_mod_cast normVip_nonneg rows cols vipRows attendees chrom
  have hnv1 : ((normVip rows cols vipRows attendees chrom : Rat) : Real) ≤ 1 := by
    exact_mod_cast normVip_le_one rows cols vipRows attendees chrom
  have hng0 : (0 : Real) ≤ ((normGroup rows cols vipRows attendees chrom : Rat) : Real) := by
    exact_mod_cast normGroup_nonneg rows cols vipRows attendees chrom
  have hng1 : ((normGroup rows cols vipRows attendees chrom : Rat) : Real) ≤ 1 := by
    exact_mod_cast normGroup_le_one rows cols vipRows attendees chrom
  have hnd0 : (0 : Real) ≤ normStage rows cols vipRows attendees chrom :=
    normStage_nonneg rows cols vipRows attendees chrom
  have hnd1 : normStage rows cols vipRows attendees chrom ≤ 1 :=
    normStage_le_one rows cols vipRows attendees chrom hpri
  have hw1r : (0 : Real) ≤ (w.friendProximity : Real) := by exact_mod_cast hw1
  have hw2r : (0 : Real) ≤ (w.vipPlacement : Real) := by exact_mod_cast hw2
  have hw3r : (0 : Real) ≤ (w.groupCohesion : Real) := by exact_mod_cast hw3
  have hw4r : (0 : Real) ≤ (w.stageDistance : Real) := by exact_mod_cast hw4
  have hWr : (0 : Real) < ((w.friendProximity + w.vipPlacement + w.groupCohesion +
      w.stageDistance : Rat) : Real) := by exact_mod_cast hwpos
  refine ⟨⟨?_, ?_⟩, ⟨?_, ?_⟩, ⟨?_, ?_⟩, ⟨?_, ?_⟩, ⟨?_, ?_⟩⟩
  · rw [calculateFitness_friendProximity]; exact hnf0
  · rw [calculateFitness_friendProximity]; exact hnf1
  · rw [calculateFitness_vipPlacement]; exact hnv0
  · rw [calculateFitness_vipPlacement]; exact hnv1
  · rw [calculateFitness_groupCohesion]; exact hng0
  · rw [calculateFitness_groupCohesion]; exact hng1
  · rw [calculateFitness_stageDistance]; exact hnd0
  · rw [calculateFitness_stageDistance]; exact hnd1
  · rw [calculateFitness_total]
    push_cast
    have hnum : (0 : Real) ≤
        ((normFriend rows cols vipRows attendees chrom : Rat) : Real) *
          (w.friendProximity : Real) +
        ((normVip rows cols vipRows attendees chrom : Rat) : Real) *
          (w.vipPlacement : Real) +
        ((normGroup rows cols vipRows attendees chrom : Rat) : Real) *
          (w.groupCohesion : Real) +
        normStage rows cols vipRows attendees chrom * (w.stageDistance : Real) := by
      have := mul_nonneg hnf0 hw1r
      have := mul_nonneg hnv0 hw2r
      have := mul_nonneg hng0 hw3r
      have := mul_nonneg hnd0 hw4r
      linarith
    have hden : (0 : Real) ≤ (w.friendProximity : Real) + (w.vipPlacement : Real) +
        (w.groupCohesion : Real) + (w.stageDistance : Real) := by
      push_cast at hWr
      linarith
    positivity
  · rw [calculateFitness_total]
    rw [div_le_one hWr]
    push_cast
    have h1 : ((normFriend rows cols vipRows attendees chrom : Rat) : Real) *
        (w.friendProximity : Real) ≤ (w.friendProximity : Real) :=
      mul_le_of_le_one_left hw1r hnf1
    have h2 : ((normVip rows cols vipRows attendees chrom : Rat) : Real) *
        (w.vipPlacement : Real) ≤ (w.vipPlacement : Real) :=
      mul_le_of_le_one_left hw2r hnv1
    have h3 : ((normGroup rows cols vipRows attendees chrom : Rat) : Real) *
        (w.groupCohesion : Real) ≤ (w.groupCohesion : Real) :=
      mul_le_of_le_one_left hw3r hng1
    have h4 : normStage rows cols vipRows attendees chrom * (w.stageDistance : Real) ≤
        (w.stageDistance : Real) :=
      mul_le_of_le_one_left hw4r hnd1
    linarith

/-- The default weight configuration of the constructor
(`friendWeight 30, vipWeight 25, groupWeight 25, distanceWeight 20`, each
divided by 100). -/
def defaultWeights : Weights :=
  { friendProximity := 30 / 100, vipPlacement := 25 / 100,
    groupCohesion := 25 / 100, stageDistance := 20 / 100 }

theorem calculateFitness_bounds_witness :
    (ValidAssignment 2 2 ([regularAttendee] : List Attendee).length [0] ∧
      (∀ a ∈ ([regularAttendee] : List Attendee), 0 ≤ a.priority) ∧
      0 ≤ defaultWeights.friendProximity ∧ 0 ≤ defaultWeights.vipPlacement ∧
      0 ≤ defaultWeights.groupCohesion ∧ 0 ≤ defaultWeights.stageDistance ∧
      0 < defaultWeights.friendProximity + defaultWeights.vipPlacement +
        defaultWeights.groupCohesion + defaultWeights.stageDistance) ∧
    ((0 ≤ (calculateFitness 2 2 1 [regularAttendee] defaultWeights [0]).friendProximity ∧
      (calculateFitness 2 2 1 [regularAttendee] defaultWeights [0]).friendProximity ≤ 1) ∧
    (0 ≤ (calculateFitness 2 2 1 [regularAttendee] defaultWeights [0]).vipPlacement ∧
      (calculateFitness 2 2 1 [regularAttendee] defaultWeights [0]).vipPlacement ≤ 1) ∧
    (0 ≤ (calculateFitness 2 2 1 [regularAttendee] defaultWeights [0]).groupCohesion ∧
      (calculateFitness 2 2 1 [regularAttendee] defaultWeights [0]).groupCohesion ≤ 1) ∧
    (0 ≤ (calculateFitness 2 2 1 [regularAttendee] defaultWeights [0]).stageDistance ∧
      (calculateFitness 2 2 1 [regularAttendee] defaultWeights [0]).stageDistance ≤ 1) ∧
    (0 ≤ (calculateFitness 2 2 1 [regularAttendee] defaultWeights [0]).total ∧
      (calculateFitness 2 2 1 [regularAttendee] defaultWeights [0]).total ≤ 1)) :=
  ⟨⟨by decide, by norm_num [regularAttendee], by norm_num [defaultWeights],
      by norm_num [defaultWeights], by norm_num [defaultWeights],
      by norm_num [defaultWeights], by norm_num [defaultWeights]⟩,
    calculateFitness_bounds 2 2 1 [regularAttendee] defaultWeights [0]
      (by decide) (by norm_num [regularAttendee]) (by norm_num [defaultWeights])
      (by norm_num [defaultWeights]) (by norm_num [defaultWeights])
      (by norm_num [defaultWeights]) (by norm_num [defaultWeights])⟩

/-- C7: whenever the accumulated maximum of a sub-score is zero (no friendship
pairs, no VIP attendees, or no group with at least two members), the
corresponding normalized sub-score returned by `calculateFitness` is exactly
1. -/
theorem subscore_neutral_when_max_zero (rows cols vipRows : Nat)
    (attendees : List Attendee) (w : Weights) (chrom : List Nat) :
    (maxFriendScore attendees = 0 →
      (calculateFitness rows cols vipRows attendees w chrom).friendProximity = 1) ∧
    (maxVipScore attendees = 0 →
      (calculateFitness rows cols vipRows attendees w chrom).vipPlacement = 1) ∧
    (maxGroupScore attendees = 0 →
      (calculateFitness rows cols vipRows attendees w chrom).groupCohesion = 1) := by
  refine ⟨?_, ?_, ?_⟩
  · intro h
    rw [calculateFitness_friendProximity]
    unfold normFriend
    rw [if_neg (by simp [h])]
    norm_num
  · intro h
    rw [calculateFitness_vipPlacement]
    unfold normVip
    rw [if_neg (by simp [h])]
    norm_num
  · intro h
    rw [calculateFitness_groupCohesion]
    unfold normGroup
    rw [if_neg (by simp [h])]
    norm_num

theorem subscore_neutral_witness :
    (maxFriendScore [regularAttendee] = 0 ∧ maxVipScore [regularAttendee] = 0 ∧
      maxGroupScore [regularAttendee] = 0) ∧
    ((calculateFitness 1 1 1 [regularAttendee] defaultWeights [0]).friendProximity = 1 ∧
      (calculateFitness 1 1 1 [regularAttendee] defaultWeights [0]).vipPlacement = 1 ∧
      (calculateFitness 1 1 1 [regularAttendee] defaultWeights [0]).groupCohesion = 1) :=
  ⟨⟨rfl, by simp [maxVipScore, regularAttendee], rfl⟩,
    (subscore_neutral_when_max_zero 1 1 1 [regularAttendee] defaultWeights [0]).1
      rfl,
    (subscore_neutral_when_max_zero 1 1 1 [regularAttendee] defaultWeights [0]).2.1
      (by simp [maxVipScore, regularAttendee]),
    (subscore_neutral_when_max_zero 1 1 1 [regularAttendee] defaultWeights [0]).2.2
      rfl⟩

theorem venueSeats_length (rows cols vipRows : Nat) :
    (venueSeats rows cols vipRows).length = rows * cols := by
  induction rows with
  | zero => simp [venueSeats]
  | succ r ih =>
      unfold venueSeats at ih ⊢
      rw [List.range_succ, List.flatMap_append]
      simp only [List.length_append, ih, List.flatMap_cons, List.flatMap_nil,
        List.append_nil, List.length_map, List.length_range]
      ring

theorem seatAt_eq (rows cols vipRows p : Nat) (hp : p < rows * cols) :
    seatAt rows cols vipRows p =
      { row := p / cols, col := p % cols, isVip := decide (p / cols < vipRows),
        position := p / cols * cols + p % cols } := by
  induction rows with
  | zero => simp at hp
  | succ r ih =>
      have hsplit : venueSeats (r + 1) cols vipRows =
          venueSeats r cols vipRows ++ (List.range cols).map fun c =>
            { row := r, col := c, isVip := decide (r < vipRows),
              position := r * cols + c } := by
        unfold venueSeats
        rw [List.range_succ, List.flatMap_append]
        simp
      by_cases hlt : p < r * cols
      · have := ih hlt
        unfold seatAt at this ⊢
        rw [hsplit, List.getD_append _ _ _ _ (by rw [venueSeats_length]; exact hlt)]
        exact this
      · push_neg at hlt
        have hcpos : 0 < cols := by
          rcases Nat.eq_zero_or_pos cols with h0 | h
          · subst h0; simp at hp
          · exact h
        have ht : p - r * cols < cols := by
          have : p < r * cols + cols := by
            have := hp
            rw [Nat.succ_mul] at this
            exact this
          omega
        have hrep : p = (p - r * cols) + r * cols := by omega
        have hdiv : p / cols = r := by
          conv_lhs => rw [hrep]
          rw [Nat.add_mul_div_right _ _ hcpos, Nat.div_eq_of_lt ht]
          omega
        have hmod : p % cols = p - r * cols := by
          conv_lhs => rw [hrep]
          rw [Nat.add_mul_mod_self_right, Nat.mod_eq_of_lt ht]
        unfold seatAt
        rw [hsplit, List.getD_append_right _ _ _ _ (by rw [venueSeats_length]; exact hlt)]
        rw [venueSeats_length]
        have hget : ((List.range cols).map fun c =>
            ({ row := r, col := c, isVip := decide (r < vipRows),
               position := r * cols + c } : Seat)).getD (p - r * cols) dummySeat =
            { row := r, col := p - r * cols, isVip := decide (r < vipRows),
              position := r * cols + (p - r * cols) } := by
          rw [List.getD_eq_getElem?_getD, List.getElem?_map, List.getElem?_range ht]
          rfl
        rw [hget, hdiv, hmod]

/-- The seat part of one entry of the decoded seating plan. -/
structure PlanSeat where
  row : Nat
  col : Nat
  rowLabel : String
  seatNumber : Nat
  isVip : Bool
  seatId : String
  deriving DecidableEq, Repr

/-- `getSeatingPlan(solution)`: decode a chromosome into attendee/seat pairs,
with the display fields (`rowLabel` is the letter at char code `65 + row`,
`seatNumber` is the 1-based column, `seatId` their concatenation). -/
def getSeatingPlan (rows cols vipRows : Nat) (attendees : List Attendee)
    (chrom : List Nat) : List (Attendee × PlanSeat) :=
  attendees.enum.map fun p =>
    let seat := seatAt rows cols vipRows (chrom.getD p.1 0)
    (p.2,
      { row := seat.row
        col := seat.col
        rowLabel := (Char.ofNat (65 + seat.row)).toString
        seatNumber := seat.col + 1
        isVip := seat.isVip
        seatId := (Char.ofNat (65 + seat.row)).toString ++ toString (seat.col + 1) })

/-- Default entry used to totalize indexing into the decoded plan. -/
def planDummy : Attendee × PlanSeat :=
  (regularAttendee,
    { row := 0, col := 0, rowLabel := "", seatNumber := 0, isVip := false,
      seatId := "" })

/-- C8: the seat table built by `setVenue` stores the seat with row `r` and
column `c` at index `r*cols + c`, and decoding an assignment through
`getSeatingPlan` reproduces it: for every attendee index `i`, the decoded
seat satisfies `row*cols + col = A[i]`, and its display fields follow the
external `seatId` contract (letter at char code `65 + row`, then the 1-based
column number). -/
theorem getSeatingPlan_decodes (rows cols vipRows : Nat)
    (attendees : List Attendee) (chrom : List Nat) (i : Nat)
    (hmem : ∀ x ∈ chrom, x < rows * cols)
    (hlen : chrom.length = attendees.length)
    (hi : i < attendees.length) :
    (∀ r c : Nat, r < rows → c < cols →
      seatAt rows cols vipRows (r * cols + c) =
        { row := r, col := c, isVip := decide (r < vipRows),
          position := r * cols + c }) ∧
    ((getSeatingPlan rows cols vipRows attendees chrom).getD i planDummy).2.row *
        cols +
      ((getSeatingPlan rows cols vipRows attendees chrom).getD i planDummy).2.col =
      chrom.getD i 0 ∧
    ((getSeatingPlan rows cols vipRows attendees chrom).getD i planDummy).2.seatId =
      (Char.ofNat (65 +
        ((getSeatingPlan rows cols vipRows attendees chrom).getD i planDummy).2.row)).toString
        ++ toString
          (((getSeatingPlan rows cols vipRows attendees chrom).getD i planDummy).2.col + 1) ∧
    ((getSeatingPlan rows cols vipRows attendees chrom).getD i planDummy).2.rowLabel =
      (Char.ofNat (65 +
        ((getSeatingPlan rows cols vipRows attendees chrom).getD i planDummy).2.row)).toString ∧
    ((getSeatingPlan rows cols vipRows attendees chrom).getD i planDummy).2.seatNumber =
      ((getSeatingPlan rows cols vipRows attendees chrom).getD i planDummy).2.col + 1 := by
  have hpos : ∀ r c : Nat, r < rows → c < cols →
      seatAt rows cols vipRows (r * cols + c) =
        { row := r, col := c, isVip := decide (r < vipRows),
          position := r * cols + c } := by
    intro r c hr hc
    have hcpos : 0 < cols := by omega
    have hptotal : r * cols + c < rows * cols := by
      calc r * cols + c < r * cols + cols := by omega
        _ = (r + 1) * cols := by ring
        _ ≤ rows * cols := Nat.mul_le_mul_right _ (by omega)
    rw [seatAt_eq rows cols vipRows _ hptotal]
    have hdiv : (r * cols + c) / cols = r := by
      rw [Nat.add_comm, Nat.add_mul_div_right _ _ hcpos, Nat.div_eq_of_lt hc,
        Nat.zero_add]
    have hmod : (r * cols + c) % cols = c := by
      rw [Nat.add_comm, Nat.add_mul_mod_self_right, Nat.mod_eq_of_lt hc]
    rw [hdiv, hmod]
  refine ⟨hpos, ?_⟩
  have hil : i < (getSeatingPlan rows cols vipRows attendees chrom).length := by
    simp [getSeatingPlan, hi]
  have hentry : (getSeatingPlan rows cols vipRows attendees chrom).getD i planDummy =
      (getSeatingPlan rows cols vipRows attendees chrom)[i] :=
    List.getD_eq_getElem _ _ hil
  have hichrom : i < chrom.length := by rw [hlen]; exact hi
  have hgete : (getSeatingPlan rows cols vipRows attendees chrom)[i] =
      (attendees[i],
        { row := (seatAt rows cols vipRows (chrom.getD i 0)).row
          col := (seatAt rows cols vipRows (chrom.getD i 0)).col
          rowLabel := (Char.ofNat
            (65 + (seatAt rows cols vipRows (chrom.getD i 0)).row)).toString
          seatNumber := (seatAt rows cols vipRows (chrom.getD i 0)).col + 1
          isVip := (seatAt rows cols vipRows (chrom.getD i 0)).isVip
          seatId := (Char.ofNat
            (65 + (seatAt rows cols vipRows (chrom.getD i 0)).row)).toString ++
            toString ((seatAt rows cols vipRows (chrom.getD i 0)).col + 1) }) := by
    simp only [getSeatingPlan, List.getElem_map, List.getElem_enum]
  have hpmem : chrom.getD i 0 < rows * cols := by
    have : chrom.getD i 0 = chrom[i] := List.getD_eq_getElem _ _ hichrom
    rw [this]
    exact hmem _ (List.getElem_mem _)
  have hseat := seatAt_eq rows cols vipRows (chrom.getD i 0) hpmem
  have hcpos : 0 < cols := by
    rcases Nat.eq_zero_or_pos cols with h0 | h
    · rw [h0, Nat.mul_zero] at hpmem; omega
    · exact h
  refine ⟨?_, ?_, ?_, ?_⟩
  · rw [hentry, hgete]
    simp only [hseat]
    exact Nat.div_add_mod' _ _
  · rw [hentry, hgete]
  · rw [hentry, hgete]
  · rw [hentry, hgete]

theorem getSeatingPlan_decodes_witness :
    ((∀ x ∈ ([4, 2] : List Nat), x < 2 * 3) ∧
      ([4, 2] : List Nat).length = ([regularAttendee, regularAttendee] : List Attendee).length ∧
      0 < ([regularAttendee, regularAttendee] : List Attendee).length) ∧
    ((getSeatingPlan 2 3 1 [regularAttendee, regularAttendee] [4, 2]).getD 0 planDummy).2.row *
        3 +
      ((getSeatingPlan 2 3 1 [regularAttendee, regularAttendee] [4, 2]).getD 0 planDummy).2.col =
      ([4, 2] : List Nat).getD 0 0 :=
  ⟨⟨by decide, by decide, by decide⟩,
    ((getSeatingPlan_decodes 2 3 1 [regularAttendee, regularAttendee] [4, 2] 0
      (by decide) (by decide) (by decide)).2).1⟩

/-- The first friendship pair (in map iteration order) whose seats are at
Manhattan distance greater than 3; the pair `improveFriendProximity` targets. -/
def farFriendPair (rows cols vipRows : Nat) (attendees : List Attendee)
    (chrom : List Nat) : Option (Nat × Nat) :=
  ((friendshipsOf attendees).flatMap fun pr => pr.2.map fun f => (pr.1, f)).find?
    fun pf => decide (3 < getSeatDistance (seatOf rows cols vipRows chrom pf.1)
      (seatOf rows cols vipRows chrom pf.2))

/-- `trySwapForBetterProximity`: swap `idx1` with the first other attendee
whose seat is Manhattan-adjacent to the seat of `idx2`; no-op when none is. -/
def trySwapForBetterProximity (rows cols vipRows : Nat) (chrom : List Nat)
    (idx1 idx2 : Nat) : List Nat :=
  match (List.range chrom.length).find? (fun i =>
      decide (i ≠ idx1) && decide (i ≠ idx2) &&
      decide (getSeatDistance (seatOf rows cols vipRows chrom i)
        (seatOf rows cols vipRows chrom idx2) = 1)) with
  | some i => listSwap chrom idx1 i
  | none => chrom

/-- `improveFriendProximity`: locate the first far friendship pair and attempt
one proximity swap for it; the source returns right after the first far pair,
whether or not the attempted swap succeeds. -/
def improveFriendProximity (rows cols vipRows : Nat) (attendees : List Attendee)
    (chrom : List Nat) : List Nat :=
  match farFriendPair rows cols vipRows attendees chrom with
  | some pf => trySwapForBetterProximity rows cols vipRows chrom pf.1 pf.2
  | none => chrom

/-- First VIP attendee sitting in a non-VIP seat. -/
def vipInRegularSeat (rows cols vipRows : Nat) (attendees : List Attendee)
    (chrom : List Nat) : Option Nat :=
  (List.range attendees.length).find? fun i =>
    decide ((attendees.getD i regularAttendee).type = "vip") &&
    !(seatOf rows cols vipRows chrom i).isVip

/-- First non-VIP attendee sitting in a VIP seat. -/
def regularInVipSeat (rows cols vipRows : Nat) (attendees : List Attendee)
    (chrom : List Nat) : Option Nat :=
  (List.range attendees.length).find? fun j =>
    decide (¬(attendees.getD j regularAttendee).type = "vip") &&
    (seatOf rows cols vipRows chrom j).isVip

/-- `improveVipPlacement`: swap the first misplaced VIP with the first
non-VIP occupying a VIP seat (the inner scan of the source is independent of
the outer loop variable, so the first qualifying pair decides the swap);
no-op when either side is missing. -/
def improveVipPlacement (rows cols vipRows : Nat) (attendees : List Attendee)
    (chrom : List Nat) : List Nat :=
  match vipInRegularSeat rows cols vipRows attendees chrom,
      regularInVipSeat rows cols vipRows attendees chrom with
  | some i, some j => listSwap chrom i j
  | _, _ => chrom

/-- `smartMutate(chromosome, fitness)`: copy the chromosome, attempt a
friend-proximity improvement when `fitness.friendProximity < 0.7` and the
first coin lands below 0.5, then attempt a VIP-placement improvement when
`fitness.vipPlacement < 0.8` and the second coin lands below 0.5.  The two
conditions are tested independently, one after the other. -/
noncomputable def smartMutate (rows cols vipRows : Nat) (attendees : List Attendee)
    (chrom : List Nat) (fit : Fitness) (coin1 coin2 : Bool) : List Nat :=
  let m1 := if fit.friendProximity < 0.7 ∧ coin1 = true then
    improveFriendProximity rows cols vipRows attendees chrom else chrom
  if fit.vipPlacement < 0.8 ∧ coin2 = true then
    improveVipPlacement rows cols vipRows attendees m1 else m1

/-- `out` is `inp` unchanged or `inp` with one transposition of two entries. -/
def SwapOrId (out inp : List Nat) : Prop :=
  out = inp ∨ ∃ i j, out = listSwap inp i j

theorem improveFriendProximity_swapOrId (rows cols vipRows : Nat)
    (attendees : List Attendee) (chrom : List Nat) :
    SwapOrId (improveFriendProximity rows cols vipRows attendees chrom) chrom := by
  unfold improveFriendProximity
  cases hfp : farFriendPair rows cols vipRows attendees chrom with
  | none => exact Or.inl rfl
  | some pf =>
      show SwapOrId (trySwapForBetterProximity rows cols vipRows chrom pf.1 pf.2) chrom
      unfold trySwapForBetterProximity
      cases hfind : (List.range chrom.length).find? (fun i =>
          decide (i ≠ pf.1) && decide (i ≠ pf.2) &&
          decide (getSeatDistance (seatOf rows cols vipRows chrom i)
            (seatOf rows cols vipRows chrom pf.2) = 1)) with
      | none => exact Or.inl rfl
      | some i => exact Or.inr ⟨pf.1, i, rfl⟩

theorem improveVipPlacement_swapOrId (rows cols vipRows : Nat)
    (attendees : List Attendee) (chrom : List Nat) :
    SwapOrId (improveVipPlacement rows cols vipRows attendees chrom) chrom := by
  unfold improveVipPlacement
  cases h1 : vipInRegularSeat rows cols vipRows attendees chrom with
  | none => exact Or.inl rfl
  | some i =>
      cases h2 : regularInVipSeat rows cols vipRows attendees chrom with
      | none => exact Or.inl rfl
      | some j => exact Or.inr ⟨i, j, rfl⟩

theorem smartMutate_eq (rows cols vipRows : Nat) (attendees : List Attendee)
    (chrom : List Nat) (fit : Fitness) (coin1 coin2 : Bool) :
    smartMutate rows cols vipRows attendees chrom fit coin1 coin2 =
      (if fit.vipPlacement < 0.8 ∧ coin2 = true then
        improveVipPlacement rows cols vipRows attendees
          (if fit.friendProximity < 0.7 ∧ coin1 = true then
            improveFriendProximity rows cols vipRows attendees chrom else chrom)
      else
        (if fit.friendProximity < 0.7 ∧ coin1 = true then
          improveFriendProximity rows cols vipRows attendees chrom else chrom)) := rfl

/-- C4 amended: a `smartMutate` call performs at most one friend-proximity
swap followed by at most one VIP-placement swap — the two branches are
independent, so both can fire in the same call — and each branch leaves the
chromosome unchanged when its qualifying swap does not exist. -/
theorem smartMutate_at_most_two_swaps (rows cols vipRows : Nat)
    (attendees : List Attendee) (chrom : List Nat) (fit : Fitness)
    (coin1 coin2 : Bool) :
    (∃ mid, SwapOrId mid chrom ∧
      SwapOrId (smartMutate rows cols vipRows attendees chrom fit coin1 coin2) mid) ∧
    (farFriendPair rows cols vipRows attendees chrom = none →
      improveFriendProximity rows cols vipRows attendees chrom = chrom) ∧
    (vipInRegularSeat rows cols vipRows attendees chrom = none ∨
        regularInVipSeat rows cols vipRows attendees chrom = none →
      improveVipPlacement rows cols vipRows attendees chrom = chrom) := by
  refine ⟨?_, ?_, ?_⟩
  · refine ⟨if fit.friendProximity < 0.7 ∧ coin1 = true then
      improveFriendProximity rows cols vipRows attendees chrom else chrom, ?_, ?_⟩
    · split
      · exact improveFriendProximity_swapOrId _ _ _ _ _
      · exact Or.inl rfl
    · rw [smartMutate_eq]
      split
      · exact improveVipPlacement_swapOrId _ _ _ _ _
      · exact Or.inl rfl
  · intro h
    unfold improveFriendProximity
    rw [h]
  · intro h
    unfold improveVipPlacement
    rcases h with h | h
    · rw [h]
    · rw [h]
      cases vipInRegularSeat rows cols vipRows attendees chrom <;> rfl

theorem smartMutate_at_most_two_swaps_witness :
    (farFriendPair 1 1 1 [regularAttendee] [0] = none ∧
      vipInRegularSeat 1 1 1 [regularAttendee] [0] = none) ∧
    (improveFriendProximity 1 1 1 [regularAttendee] [0] = [0] ∧
      improveVipPlacement 1 1 1 [regularAttendee] [0] = [0]) :=
  ⟨⟨by decide, by decide⟩,
    (smartMutate_at_most_two_swaps 1 1 1 [regularAttendee] [0]
      { total := 0, friendProximity := 0, vipPlacement := 0, groupCohesion := 0,
        stageDistance := 0 } true true).2.1 (by decide),
    (smartMutate_at_most_two_swaps 1 1 1 [regularAttendee] [0]
      { total := 0, friendProximity := 0, vipPlacement := 0, groupCohesion := 0,
        stageDistance := 0 } true true).2.2 (Or.inl (by decide))⟩

/-- Attendees of the two-swap counterexample: two grouped friends, one VIP,
one ungrouped regular. -/
def cexAttendees : List Attendee :=
  [{ type := "regular", group := some "g", preference := "any", priority := 5 },
   { type := "regular", group := some "g", preference := "any", priority := 5 },
   { type := "vip", group := none, preference := "any", priority := 5 },
   { type := "regular", group := none, preference := "any", priority := 5 }]

/-- Chromosome of the two-swap counterexample (venue 2 rows, 4 cols, 1 VIP
row): the friends sit at opposite corners, the VIP in a non-VIP seat, a
regular in a VIP seat. -/
def cexChrom : List Nat := [0, 7, 4, 3]

/-- C4 counterexample: on `cexAttendees`/`cexChrom` with both sub-scores below
their thresholds and both coins successful, `smartMutate` performs BOTH the
friend-proximity swap and the VIP-placement swap in one call: its result
differs from the unchanged chromosome and from the result of either single
targeted swap alone. -/
theorem smartMutate_two_swaps_cex :
    smartMutate 2 4 1 cexAttendees cexChrom
      { total := 0, friendProximity := 0, vipPlacement := 0, groupCohesion := 0,
        stageDistance := 0 } true true = [4, 7, 3, 0] ∧
    ¬(smartMutate 2 4 1 cexAttendees cexChrom
        { total := 0, friendProximity := 0, vipPlacement := 0, groupCohesion := 0,
          stageDistance := 0 } true true = cexChrom ∨
      smartMutate 2 4 1 cexAttendees cexChrom
        { total := 0, friendProximity := 0, vipPlacement := 0, groupCohesion := 0,
          stageDistance := 0 } true true =
        improveFriendProximity 2 4 1 cexAttendees cexChrom ∨
      smartMutate 2 4 1 cexAttendees cexChrom
        { total := 0, friendProximity := 0, vipPlacement := 0, groupCohesion := 0,
          stageDistance := 0 } true true =
        improveVipPlacement 2 4 1 cexAttendees cexChrom) := by
  have hval : smartMutate 2 4 1 cexAttendees cexChrom
      { total := 0, friendProximity := 0, vipPlacement := 0, groupCohesion := 0,
        stageDistance := 0 } true true = [4, 7, 3, 0] := by
    rw [smartMutate_eq, if_pos ⟨by norm_num, rfl⟩, if_pos ⟨by norm_num, rfl⟩]
    decide
  have h1 : improveFriendProximity 2 4 1 cexAttendees cexChrom = [3, 7, 4, 0] := by
    decide
  have h2 : improveVipPlacement 2 4 1 cexAttendees cexChrom = [4, 7, 0, 3] := by
    decide
  refine ⟨hval, ?_⟩
  rw [hval, h1, h2]
  decide

/-- First isolated member of a group (no same-group neighbor within Manhattan
distance 2) paired with the first outside attendee adjacent to another member. -/
def isolatedPairInGroup (rows cols vipRows : Nat) (attendees : List Attendee)
    (chrom : List Nat) (members : List Nat) : Option (Nat × Nat) :=
  members.findSome? fun memberIdx =>
    if members.any fun o => decide (o ≠ memberIdx) &&
        decide (getSeatDistance (seatOf rows cols vipRows chrom memberIdx)
          (seatOf rows cols vipRows chrom o) ≤ 2) then none
    else
      members.findSome? fun o =>
        if o = memberIdx then none
        else
          (List.range attendees.length).findSome? fun k =>
            if ¬members.contains k ∧ getSeatDistance (seatOf rows cols vipRows chrom o)
                (seatOf rows cols vipRows chrom k) = 1 then
              some (memberIdx, k)
            else none

/-- The group-cohesion branch of `findWeakArea`. -/
def groupWeakPair (rows cols vipRows : Nat) (attendees : List Attendee)
    (chrom : List Nat) : Option (Nat × Nat) :=
  (groupsOf attendees).findSome? fun gm =>
    if gm.2.length ≤ 1 then none
    else isolatedPairInGroup rows cols vipRows attendees chrom gm.2

/-- `findWeakArea`: when VIP placement is weak, the first misplaced VIP paired
with the first non-VIP in a VIP seat; otherwise (or when no such pair exists)
when group cohesion is weak, the first isolated-member swap pair; else none. -/
noncomputable def findWeakArea (rows cols vipRows : Nat) (attendees : List Attendee)
    (chrom : List Nat) (fit : Fitness) : Option (Nat × Nat) :=
  let vipPair : Option (Nat × Nat) :=
    if fit.vipPlacement < 0.8 then
      match vipInRegularSeat rows cols vipRows attendees chrom,
          regularInVipSeat rows cols vipRows attendees chrom with
      | some i, some j => some (i, j)
      | _, _ => none
    else none
  match vipPair with
  | some pair => some pair
  | none => if fit.groupCohesion < 0.7 then
      groupWeakPair rows cols vipRows attendees chrom
    else none

/-- The random draws one simulated-annealing iteration consumes: the targeted
versus random choice, the two random swap indices, and the uniform draw
compared against the Metropolis acceptance probability. -/
structure SARand where
  useTargeted : Bool
  i1 : Nat
  i2 : Nat
  accept : Real

/-- Neighbor generation of one SA iteration: with the targeted choice, swap
the pair `findWeakArea` returns (falling back to the random swap when it
returns none); otherwise swap two random positions. -/
noncomputable def saNeighbor (rows cols vipRows : Nat) (attendees : List Attendee)
    (current : List Nat) (fit : Fitness) (useTargeted : Bool) (i1 i2 : Nat) :
    List Nat :=
  if useTargeted = true then
    match findWeakArea rows cols vipRows attendees current fit with
    | some pair => listSwap current pair.1 pair.2
    | none => listSwap current i1 i2
  else listSwap current i1 i2

/-- The mutable state of `simulatedAnnealing`. -/
structure SAState where
  current : List Nat
  currentFitness : Fitness
  best : List Nat
  bestFitness : Fitness
  temp : Real

/-- The iteration loop of `simulatedAnnealing`: generate a neighbor, accept
it when the fitness delta is positive or the Metropolis draw succeeds, track
the strictly-best solution, cool the temperature; stop when the iteration
budget or the minimum temperature is reached. -/
noncomputable def saLoop (rows cols vipRows : Nat) (attendees : List Attendee)
    (w : Weights) (coolingRate minTemp : Real) (rnd : Nat → SARand) :
    Nat → Nat → SAState → SAState
  | 0, _, st => st
  | n + 1, idx, st =>
      if minTemp < st.temp then
        let r := rnd idx
        let neighbor := saNeighbor rows cols vipRows attendees st.current
          st.currentFitness r.useTargeted r.i1 r.i2
        let nf := calculateFitness rows cols vipRows attendees w neighbor
        let delta := nf.total - st.currentFitness.total
        let st' : SAState :=
          if 0 < delta ∨ r.accept < Real.exp (delta / st.temp) then
            { current := neighbor
              currentFitness := nf
              best := if st.bestFitness.total < nf.total then neighbor else st.best
              bestFitness := if st.bestFitness.total < nf.total then nf
                else st.bestFitness
              temp := st.temp * coolingRate }
          else
            { st with temp := st.temp * coolingRate }
        saLoop rows cols vipRows attendees w coolingRate minTemp rnd n (idx + 1) st'
      else st

/-- `simulatedAnnealing(chromosome, iterations)`: start from the input
chromosome as both current and best solution and run the loop; return the
tracked best and its fitness. -/
noncomputable def simulatedAnnealing (rows cols vipRows : Nat)
    (attendees : List Attendee) (w : Weights) (initialTemp coolingRate minTemp : Real)
    (chrom : List Nat) (iterations : Nat) (rnd : Nat → SARand) :
    List Nat × Fitness :=
  let cf := calculateFitness rows cols vipRows attendees w chrom
  let final := saLoop rows cols vipRows attendees w coolingRate minTemp rnd
    iterations 0
    { current := chrom, currentFitness := cf, best := chrom, bestFitness := cf,
      temp := initialTemp }
  (final.best, final.bestFitness)

/-- The final-polish update of `optimize`: the global best total is replaced
by the SA-refined total exactly when the latter is strictly larger. -/
noncomputable def optimizeFinalBest (bestTotal refinedTotal : Real) : Real :=
  if bestTotal < refinedTotal then refinedTotal else bestTotal

theorem saLoop_best_monotone (rows cols vipRows : Nat) (attendees : List Attendee)
    (w : Weights) (coolingRate minTemp : Real) (rnd : Nat → SARand)
    (n idx : Nat) (st : SAState) (x : Real) (h : x ≤ st.bestFitness.total) :
    x ≤ (saLoop rows cols vipRows attendees w coolingRate minTemp rnd n idx
      st).bestFitness.total := by
  induction n generalizing idx st with
  | zero => simpa [saLoop] using h
  | succ n ih =>
      rw [saLoop]
      split
      · apply ih
        split
        · simp only []
          split
          · have hlt : st.bestFitness.total <
                (calculateFitness rows cols vipRows attendees w
                  (saNeighbor rows cols vipRows attendees st.current
                    st.currentFitness (rnd idx).useTargeted (rnd idx).i1
                    (rnd idx).i2)).total := by assumption
            exact le_trans h (le_of_lt hlt)
          · exact h
        · exact h
      · exact h

/-- C10: `simulatedAnnealing` never returns a fitness below that of its
input: the tracked best starts at the input chromosome and is only replaced
by strictly larger totals, so for every iteration count and random stream the
returned `fitness.total` is at least `calculateFitness(input).total`; and the
final polish of `optimize` keeps the larger of the two totals, so it can
never lower the reported best fitness. -/
theorem simulatedAnnealing_no_regress (rows cols vipRows : Nat)
    (attendees : List Attendee) (w : Weights)
    (initialTemp coolingRate minTemp : Real) (chrom : List Nat)
    (iterations : Nat) (rnd : Nat → SARand) :
    (calculateFitness rows cols vipRows attendees w chrom).total ≤
      (simulatedAnnealing rows cols vipRows attendees w initialTemp coolingRate
        minTemp chrom iterations rnd).2.total ∧
    ∀ bestTotal refinedTotal : Real, bestTotal ≤ optimizeFinalBest bestTotal
      refinedTotal := by
  constructor
  · exact saLoop_best_monotone rows cols vipRows attendees w coolingRate minTemp
      rnd iterations 0 _ _ (le_refl _)
  · intro b r
    unfold optimizeFinalBest
    split
    · exact le_of_lt (by assumption)
    · exact le_refl b

/-- Polymorphic version of the JS two-position swap. -/
def swapAt (l : List α) (i j : Nat) (d : α) : List α :=
  (l.set i (l.getD j d)).set j (l.getD i d)

theorem cons_set_perm_gen (t : List α) (j : Nat) (x d : α) (hj : j < t.length) :
    (t.getD j d :: t.set j x).Perm (x :: t) := by
  induction t generalizing j with
  | nil => simp at hj
  | cons y s ih =>
      cases j with
      | zero => simpa using List.Perm.swap x y s
      | succ j =>
          have hj' : j < s.length := by simpa using hj
          have step : (s.getD j d :: y :: s.set j x).Perm (y :: s.getD j d :: s.set j x) :=
            List.Perm.swap y (s.getD j d) (s.set j x)
          have ihs : (y :: (s.getD j d :: s.set j x)).Perm (y :: (x :: s)) :=
            List.Perm.cons y (ih j hj')
          have fin : (y :: x :: s).Perm (x :: y :: s) := List.Perm.swap x y s
          simpa using (step.trans ihs).trans fin

theorem swapAt_perm (l : List α) (i j : Nat) (d : α)
    (hi : i < l.length) (hj : j < l.length) : (swapAt l i j d).Perm l := by
  induction l generalizing i j with
  | nil => simp at hi
  | cons x t ih =>
      cases i with
      | zero =>
          cases j with
          | zero => simp [swapAt]
          | succ j =>
              have hj' : j < t.length := by simpa using hj
              have : swapAt (x :: t) 0 (j + 1) d = t.getD j d :: t.set j x := by
                simp [swapAt, List.getD_cons_succ]
              rw [this]
              exact cons_set_perm_gen t j x d hj'
      | succ i =>
          cases j with
          | zero =>
              have hi' : i < t.length := by simpa using hi
              have : swapAt (x :: t) (i + 1) 0 d = t.getD i d :: t.set i x := by
                simp [swapAt, List.getD_cons_succ]
              rw [this]
              exact cons_set_perm_gen t i x d hi'
          | succ j =>
              have hi' : i < t.length := by simpa using hi
              have hj' : j < t.length := by simpa using hj
              have : swapAt (x :: t) (i + 1) (j + 1) d = x :: swapAt t i j d := by
                simp [swapAt, List.getD_cons_succ]
              rw [this]
              exact List.Perm.cons x (ih i j hi' hj')

theorem listSwap_valid (rows cols n : Nat) (chrom : List Nat) (i j : Nat)
    (h : ValidAssignment rows cols n chrom) (hi : i < chrom.length)
    (hj : j < chrom.length) : ValidAssignment rows cols n (listSwap chrom i j) := by
  obtain ⟨hlen, hnd, hmem⟩ := h
  have hperm := listSwap_perm chrom i j hi hj
  exact ⟨by rw [listSwap_length, hlen], hperm.nodup_iff.mpr hnd,
    fun x hx => hmem x (hperm.mem_iff.mp hx)⟩

/-!
The block-swap branch of `mutate` indexes the chromosome with values of
`Math.floor(Math.random() * (chromosome.length - len))`, which are negative
whenever the chromosome is shorter than the block.  JS arrays do not fail on
such accesses: negative indices become ordinary object properties, reads
beyond the length yield `undefined`, and writes beyond the length grow the
array.  The model below reproduces exactly this behavior.
-/

/-- A JS array of (possibly undefined) numbers: the indexed elements plus the
object properties created by writes at negative indices. -/
structure JsArr where
  elems : List (Option Int)
  negProps : List (Int × Option Int)
  deriving DecidableEq, Repr

/-- Store a value in an association list, updating in place or appending. -/
def setAssoc (l : List (Int × Option Int)) (k : Int) (v : Option Int) :
    List (Int × Option Int) :=
  match l with
  | [] => [(k, v)]
  | p :: rest => if p.1 = k then (k, v) :: rest else p :: setAssoc rest k v

/-- Read `a[i]` as JS does: negative indices read the property bag, in-range
indices read the element, reads beyond the length give `undefined` (`none`). -/
def jsGet (a : JsArr) (i : Int) : Option Int :=
  if i < 0 then
    match a.negProps.find? fun p => p.1 = i with
    | some p => p.2
    | none => none
  else
    match a.elems.get? i.toNat with
    | some v => v
    | none => none

/-- Write `a[i] = v` as JS does: negative indices write the property bag,
writes beyond the length grow the array (holes read `undefined`). -/
def jsSet (a : JsArr) (i : Int) (v : Option Int) : JsArr :=
  if i < 0 then { a with negProps := setAssoc a.negProps i v }
  else if h : i.toNat < a.elems.length then { a with elems := a.elems.set i.toNat v }
  else
    { a with elems := a.elems ++ List.replicate (i.toNat - a.elems.length) none ++ [v] }

/-- One element exchange `temp = a[p]; a[p] = a[q]; a[q] = temp` (the reads of
the second statement happen before its write). -/
def jsSwapStep (a : JsArr) (p q : Int) : JsArr :=
  let temp := jsGet a p
  let a1 := jsSet a p (jsGet a q)
  jsSet a1 q temp

/-- The block swap of `mutate`: exchange the two length-`len` blocks starting
at (possibly negative) offsets `s1` and `s2`, element by element. -/
def blockSwap (a : JsArr) (s1 s2 : Int) (len : Nat) : JsArr :=
  (List.range len).foldl (fun acc i => jsSwapStep acc (s1 + i) (s2 + i)) a

/-- `mutate(chromosome)`: when the mutation-rate draw succeeds, swap two
random positions, then with probability 0.3 additionally block-swap two
random segments of length 2 to 6.  All random outcomes are parameters:
`doSwap` is `Math.random() < rate`, `idx1`/`idx2` the two position draws,
`doBlock` the 0.3 draw, `blockLen` the drawn length, and `s1`/`s2` the
two start draws `Math.floor(Math.random() * (length - blockLen))`. -/
def mutate (a : JsArr) (doSwap : Bool) (idx1 idx2 : Nat) (doBlock : Bool)
    (blockLen : Nat) (s1 s2 : Int) : JsArr :=
  if doSwap = true then
    let a1 := jsSwapStep a (idx1 : Int) (idx2 : Int)
    if doBlock = true then blockSwap a1 s1 s2 blockLen else a1
  else a

/-- The possible values of `Math.floor(Math.random() * n)` for `n : Int`:
for positive `n` an integer in `[0, n)`, otherwise an integer in `[n, 0]`. -/
def RandFloor (n s : Int) : Prop :=
  (0 < n ∧ 0 ≤ s ∧ s < n) ∨ (n ≤ 0 ∧ n ≤ s ∧ s ≤ 0)

instance (n s : Int) : Decidable (RandFloor n s) := by
  unfold RandFloor; infer_instance

/-- A JS array that is a valid assignment: `n` defined entries, no stray
negative properties, pairwise-distinct values in `[0, rows*cols)`. -/
def JsValid (rc n : Nat) (a : JsArr) : Prop :=
  a.elems.length = n ∧ a.negProps = [] ∧
  (∀ ov ∈ a.elems, ∃ v, ov = some v ∧ 0 ≤ v ∧ v < (rc : Int)) ∧
  a.elems.Nodup

instance (rc n : Nat) (a : JsArr) : Decidable (JsValid rc n a) := by
  unfold JsValid; infer_instance

theorem jsSwapStep_in_range (a : JsArr) (p q : Int)
    (hp0 : 0 ≤ p) (hp : p.toNat < a.elems.length)
    (hq0 : 0 ≤ q) (hq : q.toNat < a.elems.length) :
    jsSwapStep a p q =
      { a with elems := swapAt a.elems p.toNat q.toNat none } := by
  have hgq : jsGet a q = a.elems.getD q.toNat none := by
    unfold jsGet
    rw [if_neg (by omega), List.getD_eq_getElem?_getD, List.getElem?_eq_getElem hq,
      List.get?_eq_getElem?, List.getElem?_eq_getElem hq]
    rfl
  have hgp : jsGet a p = a.elems.getD p.toNat none := by
    unfold jsGet
    rw [if_neg (by omega), List.getD_eq_getElem?_getD, List.getElem?_eq_getElem hp,
      List.get?_eq_getElem?, List.getElem?_eq_getElem hp]
    rfl
  have h1 : jsSet a p (jsGet a q) =
      { a with elems := a.elems.set p.toNat (a.elems.getD q.toNat none) } := by
    rw [hgq]
    unfold jsSet
    rw [if_neg (by omega), dif_pos hp]
  have hq1 : q.toNat < (a.elems.set p.toNat (a.elems.getD q.toNat none)).length := by
    simpa using hq
  show jsSet (jsSet a p (jsGet a q)) q (jsGet a p) = _
  rw [h1, hgp]
  unfold jsSet
  rw [if_neg (by omega), dif_pos (show q.toNat <
    ({ a with elems := a.elems.set p.toNat (a.elems.getD q.toNat none) } :
      JsArr).elems.length from hq1)]
  rfl

theorem jsSwapStep_valid (rc n : Nat) (a : JsArr) (p q : Nat)
    (h : JsValid rc n a) (hp : p < n) (hq : q < n) :
    JsValid rc n (jsSwapStep a (p : Int) (q : Int)) := by
  obtain ⟨hlen, hneg, hmem, hnd⟩ := h
  have hp' : ((p : Int)).toNat < a.elems.length := by omega
  have hq' : ((q : Int)).toNat < a.elems.length := by omega
  rw [jsSwapStep_in_range a _ _ (by omega) hp' (by omega) hq']
  have hperm := swapAt_perm a.elems ((p : Int)).toNat ((q : Int)).toNat none hp' hq'
  refine ⟨?_, hneg, ?_, ?_⟩
  · show (swapAt a.elems ((p : Int)).toNat ((q : Int)).toNat none).length = n
    rw [hperm.length_eq]
    exact hlen
  · intro ov hov
    exact hmem ov (hperm.mem_iff.mp hov)
  · exact hperm.nodup_iff.mpr hnd

theorem blockSwap_valid (rc n : Nat) (a : JsArr) (s1 s2 : Int) (len : Nat)
    (h : JsValid rc n a) (hs1 : 0 ≤ s1) (hs1e : s1 + len ≤ n)
    (hs2 : 0 ≤ s2) (hs2e : s2 + len ≤ n) :
    JsValid rc n (blockSwap a s1 s2 len) := by
  unfold blockSwap
  have main : ∀ (l : List Nat) (a : JsArr), JsValid rc n a →
      (∀ i ∈ l, s1 + i + 1 ≤ n ∧ s2 + i + 1 ≤ n) →
      JsValid rc n (l.foldl (fun acc i => jsSwapStep acc (s1 + i) (s2 + i)) a) := by
    intro l
    induction l with
    | nil => intro a ha _; exact ha
    | cons i rest ih =>
        intro a ha hb
        have hbi := hb i (by simp)
        have h1 : s1 + i = ((s1 + i).toNat : Int) := by omega
        have h2 : s2 + i = ((s2 + i).toNat : Int) := by omega
        have step : JsValid rc n (jsSwapStep a (s1 + i) (s2 + i)) := by
          rw [h1, h2]
          exact jsSwapStep_valid rc n a _ _ ha (by omega) (by omega)
        exact ih _ step fun k hk => hb k (by simp [hk])
  refine main (List.range len) a h ?_
  intro i hi
  have : i < len := List.mem_range.mp hi
  omega

/-- C1 amended, `mutate` part: when the chromosome has at least 6 entries
(so both random block starts are non-negative and both blocks fit), `mutate`
preserves the permutation invariant for every random outcome. -/
theorem mutate_valid (rc n : Nat) (a : JsArr) (doSwap : Bool) (idx1 idx2 : Nat)
    (doBlock : Bool) (blockLen : Nat) (s1 s2 : Int)
    (h : JsValid rc n a) (hi1 : idx1 < n) (hi2 : idx2 < n)
    (hbl : 2 ≤ blockLen ∧ blockLen ≤ 6)
    (hs1 : RandFloor ((n : Int) - blockLen) s1)
    (hs2 : RandFloor ((n : Int) - blockLen) s2)
    (h6 : 6 ≤ n) :
    JsValid rc n (mutate a doSwap idx1 idx2 doBlock blockLen s1 s2) := by
  unfold mutate
  split
  · have step1 : JsValid rc n (jsSwapStep a (Int.ofNat idx1) (Int.ofNat idx2)) :=
      jsSwapStep_valid rc n a idx1 idx2 h hi1 hi2
    split
    · have hb1 : 0 ≤ s1 ∧ s1 + blockLen ≤ n := by
        rcases hs1 with ⟨hpos, h0, hlt⟩ | ⟨hnp, hge, hle⟩
        · constructor
          · exact h0
          · omega
        · constructor
          · omega
          · omega
      have hb2 : 0 ≤ s2 ∧ s2 + blockLen ≤ n := by
        rcases hs2 with ⟨hpos, h0, hlt⟩ | ⟨hnp, hge, hle⟩
        · constructor
          · exact h0
          · omega
        · constructor
          · omega
          · omega
      exact blockSwap_valid rc n _ s1 s2 blockLen step1 hb1.1 hb1.2 hb2.1 hb2.2
    · exact step1
  · exact h

/-- C1 counterexample: with two attendees in a 1-by-2 venue (a valid
2-element assignment) the block swap of `mutate` can draw block length 3 and
start offsets 0 (both in the range `Math.floor(Math.random() * (2 - 3))` can
produce), and the resulting array is corrupted: its length grows to 3 and it
ends in an `undefined` entry, so the produced assignment is not a sequence of
2 pairwise-distinct in-range seat positions. -/
theorem mutate_corrupts_small_chromosome :
    (JsValid 2 2 { elems := [some 0, some 1], negProps := [] } ∧
      0 < 2 ∧ 1 < 2 ∧ 2 ≤ 3 ∧ 3 ≤ 6 ∧
      RandFloor ((2 : Int) - 3) 0 ∧ RandFloor ((2 : Int) - 3) 0) ∧
    (mutate { elems := [some 0, some 1], negProps := [] } true 0 1 true 3 0
        0).elems = [some 1, some 0, none] ∧
    ¬JsValid 2 2 (mutate { elems := [some 0, some 1], negProps := [] } true 0 1
      true 3 0 0) := by
  refine ⟨by decide, by decide, by decide⟩

/-- The Fisher-Yates loop of `shuffleArray`: for `i` from `length - 1` down
to 1, swap position `i` with position `js i` (the outcome of
`Math.floor(Math.random() * (i + 1))`). -/
def shuffleAux (js : Nat → Nat) : List Nat → Nat → List Nat
  | a, 0 => a
  | a, i + 1 => shuffleAux js (listSwap a (i + 1) (js (i + 1))) i

/-- `shuffleArray`. -/
def shuffleArray (a : List Nat) (js : Nat → Nat) : List Nat :=
  shuffleAux js a (a.length - 1)

/-- `generateRandomChromosome`: shuffle all seat positions and keep the first
`n` (one per attendee). -/
def generateRandomChromosome (rows cols n : Nat) (js : Nat → Nat) : List Nat :=
  (shuffleArray (List.range (rows * cols)) js).take n

theorem shuffleAux_perm (js : Nat → Nat) (hjs : ∀ k, js k ≤ k) :
    ∀ (i : Nat) (a : List Nat), i < a.length → (shuffleAux js a i).Perm a := by
  intro i
  induction i with
  | zero => intro a _; exact List.Perm.refl a
  | succ i ih =>
      intro a hi
      have hj : js (i + 1) < a.length := lt_of_le_of_lt (hjs (i + 1)) hi
      have hswap := listSwap_perm a (i + 1) (js (i + 1)) hi hj
      have hlen : i < (listSwap a (i + 1) (js (i + 1))).length := by
        rw [listSwap_length]; omega
      exact (ih _ hlen).trans hswap

theorem shuffleArray_perm (a : List Nat) (js : Nat → Nat)
    (hjs : ∀ k, js k ≤ k) : (shuffleArray a js).Perm a := by
  unfold shuffleArray
  cases h : a.length with
  | zero =>
      have : a = [] := List.length_eq_zero.mp h
      subst this
      exact List.Perm.refl _
  | succ m =>
      have hlt : a.length - 1 < a.length := by omega
      have := shuffleAux_perm js hjs (a.length - 1) a hlt
      rw [h] at this
      exact this

theorem generateRandomChromosome_valid (rows cols n : Nat) (js : Nat → Nat)
    (hjs : ∀ k, js k ≤ k) (hn : n ≤ rows * cols) :
    ValidAssignment rows cols n (generateRandomChromosome rows cols n js) := by
  have hperm := shuffleArray_perm (List.range (rows * cols)) js hjs
  refine ⟨?_, ?_, ?_⟩
  · rw [generateRandomChromosome, List.length_take, hperm.length_eq,
      List.length_range]
    omega
  · exact List.Nodup.sublist (List.take_sublist _ _)
      (hperm.nodup_iff.mpr (List.nodup_range _))
  · intro x hx
    have : x ∈ shuffleArray (List.range (rows * cols)) js :=
      List.take_subset _ _ hx
    have := hperm.mem_iff.mp this
    exact List.mem_range.mp this

theorem addToGroups_mem (gs : List (String × List Nat)) (g : String) (idx m : Nat) :
    (∃ gm ∈ addToGroups gs g idx, m ∈ gm.2) →
    (∃ gm ∈ gs, m ∈ gm.2) ∨ m = idx := by
  induction gs with
  | nil =>
      intro h
      obtain ⟨gm, hgm, hm⟩ := h
      simp only [addToGroups, List.mem_singleton] at hgm
      subst hgm
      simp only [List.mem_singleton] at hm
      exact Or.inr hm
  | cons p rest ih =>
      obtain ⟨name, mem⟩ := p
      intro h
      obtain ⟨gm, hgm, hm⟩ := h
      simp only [addToGroups] at hgm
      by_cases hp : name = g
      · rw [if_pos hp] at hgm
        rcases List.mem_cons.mp hgm with hgm | hgm
        · subst hgm
          simp only [List.mem_append, List.mem_singleton] at hm
          rcases hm with hm | hm
          · exact Or.inl ⟨(name, mem), List.mem_cons_self _ _, hm⟩
          · exact Or.inr hm
        · exact Or.inl ⟨gm, List.mem_cons_of_mem _ hgm, hm⟩
      · rw [if_neg hp] at hgm
        rcases List.mem_cons.mp hgm with hgm | hgm
        · subst hgm
          exact Or.inl ⟨(name, mem), List.mem_cons_self _ _, hm⟩
        · rcases ih ⟨gm, hgm, hm⟩ with h' | h'
          · obtain ⟨gm', hgm', hm'⟩ := h'
            exact Or.inl ⟨gm', List.mem_cons_of_mem _ hgm', hm'⟩
          · exact Or.inr h'

theorem groupsOf_fold_mem (P : Nat → Prop) (l : List (Nat × Attendee))
    (gs0 : List (String × List Nat))
    (h0 : ∀ gm ∈ gs0, ∀ m ∈ gm.2, P m) (hl : ∀ p ∈ l, P p.1) :
    ∀ gm ∈ l.foldl
      (fun gs p =>
        match p.2.group with
        | none => gs
        | some g => addToGroups gs g p.1) gs0, ∀ m ∈ gm.2, P m := by
  induction l generalizing gs0 with
  | nil => exact h0
  | cons p rest ih =>
      have hstep : ∀ gm ∈ (match p.2.group with
          | none => gs0
          | some g => addToGroups gs0 g p.1), ∀ m ∈ gm.2, P m := by
        cases hg : p.2.group with
        | none => exact h0
        | some g =>
            intro gm hgm m hm
            rcases addToGroups_mem gs0 g p.1 m ⟨gm, hgm, hm⟩ with h' | h'
            · obtain ⟨gm', hgm', hm'⟩ := h'
              exact h0 gm' hgm' m hm'
            · rw [h']
              exact hl p (List.mem_cons_self _ _)
      exact ih _ hstep fun q hq => hl q (List.mem_cons_of_mem _ hq)

theorem groupsOf_mem_lt (attendees : List Attendee) :
    ∀ gm ∈ groupsOf attendees, ∀ m ∈ gm.2, m < attendees.length := by
  unfold groupsOf
  refine groupsOf_fold_mem _ _ _ (by simp) ?_
  intro p hp
  obtain ⟨i, a⟩ := p
  have := List.mk_mem_enum_iff_getElem?.mp hp
  exact (List.getElem?_eq_some.mp this).1

theorem friendshipsOf_mem_lt (attendees : List Attendee) :
    ∀ pr ∈ friendshipsOf attendees, pr.1 < attendees.length ∧
      ∀ f ∈ pr.2, f < attendees.length := by
  intro pr hpr
  unfold friendshipsOf at hpr
  obtain ⟨gm, hgm, hpr⟩ := List.mem_flatMap.mp hpr
  obtain ⟨m1, hm1, heq⟩ := List.mem_map.mp hpr
  subst heq
  constructor
  · exact groupsOf_mem_lt attendees gm hgm m1 hm1
  · intro f hf
    have : f ∈ gm.2 := List.mem_of_mem_filter hf
    exact groupsOf_mem_lt attendees gm hgm f this

theorem improveFriendProximity_valid (rows cols vipRows n : Nat)
    (attendees : List Attendee) (chrom : List Nat)
    (h : ValidAssignment rows cols n chrom)
    (hlen : chrom.length = attendees.length) :
    ValidAssignment rows cols n (improveFriendProximity rows cols vipRows
      attendees chrom) := by
  unfold improveFriendProximity
  cases hfp : farFriendPair rows cols vipRows attendees chrom with
  | none => exact h
  | some pf =>
      show ValidAssignment rows cols n
        (trySwapForBetterProximity rows cols vipRows chrom pf.1 pf.2)
      have hpf1 : pf.1 < chrom.length := by
        have hmem := List.mem_of_find?_eq_some hfp
        obtain ⟨pr, hpr, hpf⟩ := List.mem_flatMap.mp hmem
        obtain ⟨f, _, heq⟩ := List.mem_map.mp hpf
        rw [hlen]
        have := (friendshipsOf_mem_lt attendees pr hpr).1
        rw [← heq]
        exact this
      unfold trySwapForBetterProximity
      cases hfind : (List.range chrom.length).find? (fun i =>
          decide (i ≠ pf.1) && decide (i ≠ pf.2) &&
          decide (getSeatDistance (seatOf rows cols vipRows chrom i)
            (seatOf rows cols vipRows chrom pf.2) = 1)) with
      | none => exact h
      | some i =>
          have hi : i < chrom.length :=
            List.mem_range.mp (List.mem_of_find?_eq_some hfind)
          exact listSwap_valid rows cols n chrom pf.1 i h hpf1 hi

theorem improveVipPlacement_valid (rows cols vipRows n : Nat)
    (attendees : List Attendee) (chrom : List Nat)
    (h : ValidAssignment rows cols n chrom)
    (hlen : chrom.length = attendees.length) :
    ValidAssignment rows cols n (improveVipPlacement rows cols vipRows
      attendees chrom) := by
  unfold improveVipPlacement
  cases h1 : vipInRegularSeat rows cols vipRows attendees chrom with
  | none => exact h
  | some i =>
      cases h2 : regularInVipSeat rows cols vipRows attendees chrom with
      | none => exact h
      | some j =>
          have hi : i < chrom.length := by
            rw [hlen]
            exact List.mem_range.mp (List.mem_of_find?_eq_some h1)
          have hj : j < chrom.length := by
            rw [hlen]
            exact List.mem_range.mp (List.mem_of_find?_eq_some h2)
          exact listSwap_valid rows cols n chrom i j h hi hj

theorem smartMutate_valid (rows cols vipRows n : Nat)
    (attendees : List Attendee) (chrom : List Nat) (fit : Fitness)
    (coin1 coin2 : Bool) (h : ValidAssignment rows cols n chrom)
    (hlen : chrom.length = attendees.length) (hn : chrom.length = n) :
    ValidAssignment rows cols n
      (smartMutate rows cols vipRows attendees chrom fit coin1 coin2) := by
  rw [smartMutate_eq]
  have hmid : ∀ c : List Nat, ValidAssignment rows cols n c →
      c.length = attendees.length →
      ValidAssignment rows cols n
        (if fit.friendProximity < 0.7 ∧ coin1 = true then
          improveFriendProximity rows cols vipRows attendees c else c) := by
    intro c hc hcl
    split
    · exact improveFriendProximity_valid rows cols vipRows n attendees c hc hcl
    · exact hc
  have hm1 := hmid chrom h hlen
  have hm1len : (if fit.friendProximity < 0.7 ∧ coin1 = true then
      improveFriendProximity rows cols vipRows attendees chrom else
      chrom).length = attendees.length := by
    rw [hm1.1, ← hn, hlen]
  split
  · exact improveVipPlacement_valid rows cols vipRows n attendees _ hm1 hm1len
  · exact hm1

theorem groupWeakPair_lt (rows cols vipRows : Nat) (attendees : List Attendee)
    (chrom : List Nat) (a b : Nat)
    (h : groupWeakPair rows cols vipRows attendees chrom = some (a, b)) :
    a < attendees.length ∧ b < attendees.length := by
  unfold groupWeakPair at h
  obtain ⟨gm, hgm, hsome⟩ := List.exists_of_findSome?_eq_some h
  by_cases hle : gm.2.length ≤ 1
  · rw [if_pos hle] at hsome
    exact absurd hsome (by simp)
  · rw [if_neg hle] at hsome
    unfold isolatedPairInGroup at hsome
    obtain ⟨memberIdx, hmem, hsome2⟩ := List.exists_of_findSome?_eq_some hsome
    by_cases hany : gm.2.any fun o => decide (o ≠ memberIdx) &&
        decide (getSeatDistance (seatOf rows cols vipRows chrom memberIdx)
          (seatOf rows cols vipRows chrom o) ≤ 2)
    · rw [if_pos hany] at hsome2
      exact absurd hsome2 (by simp)
    · rw [if_neg hany] at hsome2
      obtain ⟨o, homem, hsome3⟩ := List.exists_of_findSome?_eq_some hsome2
      by_cases ho : o = memberIdx
      · rw [if_pos ho] at hsome3
        exact absurd hsome3 (by simp)
      · rw [if_neg ho] at hsome3
        obtain ⟨k, hk, hsome4⟩ := List.exists_of_findSome?_eq_some hsome3
        have hk' : k < attendees.length := List.mem_range.mp hk
        by_cases hcond : ¬gm.2.contains k ∧
            getSeatDistance (seatOf rows cols vipRows chrom o)
              (seatOf rows cols vipRows chrom k) = 1
        · rw [if_pos hcond] at hsome4
          have hab : memberIdx = a ∧ k = b := by
            simpa using hsome4
          constructor
          · rw [← hab.1]
            exact groupsOf_mem_lt attendees gm hgm memberIdx hmem
          · rw [← hab.2]
            exact hk'
        · rw [if_neg hcond] at hsome4
          exact absurd hsome4 (by simp)

theorem findWeakArea_lt (rows cols vipRows : Nat) (attendees : List Attendee)
    (chrom : List Nat) (fit : Fitness) (a b : Nat)
    (h : findWeakArea rows cols vipRows attendees chrom fit = some (a, b)) :
    a < attendees.length ∧ b < attendees.length := by
  unfold findWeakArea at h
  by_cases hvip : fit.vipPlacement < 0.8
  · rw [if_pos hvip] at h
    cases h1 : vipInRegularSeat rows cols vipRows attendees chrom with
    | some i =>
        cases h2 : regularInVipSeat rows cols vipRows attendees chrom with
        | some j =>
            rw [h1, h2] at h
            simp only [Option.some.injEq] at h
            have hi : i < attendees.length :=
              List.mem_range.mp (List.mem_of_find?_eq_some h1)
            have hj : j < attendees.length :=
              List.mem_range.mp (List.mem_of_find?_eq_some h2)
            obtain ⟨ha, hb⟩ : i = a ∧ j = b := by
              constructor
              · exact congrArg Prod.fst h
              · exact congrArg Prod.snd h
            rw [← ha, ← hb]
            exact ⟨hi, hj⟩
        | none =>
            rw [h1, h2] at h
            simp only [] at h
            split at h
            · exact groupWeakPair_lt rows cols vipRows attendees chrom a b h
            · exact absurd h (by simp)
    | none =>
        rw [h1] at h
        simp only [] at h
        split at h
        · exact groupWeakPair_lt rows cols vipRows attendees chrom a b h
        · exact absurd h (by simp)
  · rw [if_neg hvip] at h
    simp only [] at h
    split at h
    · exact groupWeakPair_lt rows cols vipRows attendees chrom a b h
    · exact absurd h (by simp)

theorem saNeighbor_valid (rows cols vipRows n : Nat) (attendees : List Attendee)
    (chrom : List Nat) (fit : Fitness) (useTargeted : Bool) (i1 i2 : Nat)
    (h : ValidAssignment rows cols n chrom)
    (hlen : chrom.length = attendees.length)
    (hi1 : i1 < chrom.length) (hi2 : i2 < chrom.length) :
    ValidAssignment rows cols n
      (saNeighbor rows cols vipRows attendees chrom fit useTargeted i1 i2) := by
  unfold saNeighbor
  split
  · cases hfw : findWeakArea rows cols vipRows attendees chrom fit with
    | none => exact listSwap_valid rows cols n chrom i1 i2 h hi1 hi2
    | some pair =>
        obtain ⟨ha, hb⟩ := findWeakArea_lt rows cols vipRows attendees chrom fit
          pair.1 pair.2 (by rw [hfw])
        exact listSwap_valid rows cols n chrom pair.1 pair.2 h
          (by rw [hlen]; exact ha) (by rw [hlen]; exact hb)
  · exact listSwap_valid rows cols n chrom i1 i2 h hi1 hi2

/-- A valid assignment over JS numbers (children of `crossover` carry the
`-1` sentinel during construction, so they live in `Int`). -/
def ValidAssignmentInt (rows cols n : Nat) (chrom : List Int) : Prop :=
  chrom.length = n ∧ chrom.Nodup ∧ ∀ x ∈ chrom, 0 ≤ x ∧ x < ((rows * cols : Nat) : Int)

instance (rows cols n : Nat) (chrom : List Int) :
    Decidable (ValidAssignmentInt rows cols n chrom) := by
  unfold ValidAssignmentInt; infer_instance

/-- The partially-filled crossover child: positions in `[startIdx, endIdx]`
copied from the segment parent, every other position `-1`. -/
def segChild (p : List Nat) (startIdx endIdx : Nat) : List Int :=
  (List.range p.length).map fun i =>
    if startIdx ≤ i ∧ i ≤ endIdx then ((p.getD i 0 : Nat) : Int) else -1

/-- One scan of the `fillCrossoverChild` loop: advance `parentIdx` cyclically
until the first parent value not yet used, returning that value and the
following parent position. -/
def findUnusedFrom (parent : List Int) (parentIdx : Nat) (used : List Int) :
    Option (Int × Nat) :=
  (List.range parent.length).findSome? fun k =>
    let v := parent.getD ((parentIdx + k) % parent.length) 0
    if used.contains v then none else some (v, (parentIdx + k + 1) % parent.length)

/-- The `while (child.includes(-1))` loop of `fillCrossoverChild`, by fuel:
each round fills the next `-1` slot with the next unused parent value.  The
fuel `child.length` of `fillCrossoverChild` dominates the number of `-1`
slots, so the check makes the extra rounds no-ops.  (When no unused parent
value remains — impossible for two valid parents — the JS loop would spin
forever; the model returns the partial child.) -/
def fillLoop (parent : List Int) : Nat → List Int → Nat → Nat → List Int → List Int
  | 0, child, _, _, _ => child
  | m + 1, child, childIdx, parentIdx, used =>
      if child.contains (-1) then
        match findUnusedFrom parent parentIdx used with
        | none => child
        | some (v, nextP) =>
            fillLoop parent m (child.set childIdx v) ((childIdx + 1) % child.length)
              nextP (v :: used)
      else child

/-- `fillCrossoverChild(child, parent, start, end)` (the `start` argument of
the source is unused by its body): walk the other parent from position
`(end + 1) mod length`, skipping seats already present, and place the values
into the child positions from `(end + 1) mod length` onward. -/
def fillCrossoverChild (child parent : List Int) (endIdx : Nat) : List Int :=
  fillLoop parent child.length child ((endIdx + 1) % child.length)
    ((endIdx + 1) % child.length) (child.filter fun x => x ≠ -1)

/-- The two children built by `crossover` when the rate draw succeeds:
`start` and `endIdx` are the outcomes of the two segment draws
(`start ≤ endIdx < length`). -/
def crossoverChildren (p1 p2 : List Nat) (startIdx endIdx : Nat) :
    List Int × List Int :=
  (fillCrossoverChild (segChild p1 startIdx endIdx)
      (p2.map Int.ofNat) endIdx,
    fillCrossoverChild (segChild p2 startIdx endIdx)
      (p1.map Int.ofNat) endIdx)

/-- `crossover(parent1, parent2)`: with a failed rate draw (`noCross`) return
copies of the parents, otherwise the two order-preserving children. -/
def crossover (p1 p2 : List Nat) (noCross : Bool) (startIdx endIdx : Nat) :
    List Int × List Int :=
  if noCross = true then (p1.map Int.ofNat, p2.map Int.ofNat)
  else crossoverChildren p1 p2 startIdx endIdx

theorem mod_two_windows (u L : Nat) (h : u < 2 * L) :
    u % L = if u < L then u else u - L := by
  split
  · exact Nat.mod_eq_of_lt (by assumption)
  · rw [Nat.mod_eq_sub_mod (by omega)]
    exact Nat.mod_eq_of_lt (by omega)

theorem getD_set_self (l : List α) (i : Nat) (v d : α) (h : i < l.length) :
    (l.set i v).getD i d = v := by
  rw [List.getD_eq_getElem?_getD, List.getElem?_set_eq_of_lt v h]
  rfl

theorem getD_set_ne (l : List α) (i k : Nat) (v d : α) (h : i ≠ k) :
    (l.set i v).getD k d = l.getD k d := by
  rw [List.getD_eq_getElem?_getD, List.getElem?_set_ne h, ← List.getD_eq_getElem?_getD]

theorem getD_mem (l : List α) (k : Nat) (d : α) (h : k < l.length) :
    l.getD k d ∈ l := by
  rw [List.getD_eq_getElem?_getD, List.getElem?_eq_getElem h]
  exact List.getElem_mem _

theorem nodup_subset_length [DecidableEq α] {l1 l2 : List α}
    (h1 : l1.Nodup) (h2 : l1 ⊆ l2) : l1.length ≤ l2.length := by
  calc l1.length = l1.toFinset.card := (List.toFinset_card_of_nodup h1).symm
    _ ≤ l2.toFinset.card := by
        refine Finset.card_le_card ?_
        intro x hx
        rw [List.mem_toFinset] at hx ⊢
        exact h2 hx
    _ ≤ l2.length := l2.toFinset_card_le

theorem countP_range_window (n s e : Nat) :
    ((List.range n).countP fun k => decide (s ≤ k) && decide (k ≤ e)) =
      min (e + 1) n - min s n := by
  induction n with
  | zero => simp
  | succ m ih =>
      rw [List.range_succ, List.countP_append, ih]
      by_cases h1 : s ≤ m
      · by_cases h2 : m ≤ e
        · simp [List.countP_cons, h1, h2]
          omega
        · simp [List.countP_cons, h1, h2]
          omega
      · simp [List.countP_cons, h1]
        omega

theorem contains_false_iff (l : List Int) (v : Int) :
    l.contains v = false ↔ v ∉ l := by
  constructor
  · intro h hm
    have : l.contains v = true := List.elem_iff.mpr hm
    rw [h] at this
    exact absurd this (by simp)
  · intro h
    by_contra hne
    have : l.contains v = true := by
      cases hc : l.contains v
      · exact absurd hc hne
      · rfl
    exact h (List.elem_iff.mp this)

theorem countP_or_le (l : List α) (p q : α → Bool) :
    (l.countP fun x => p x || q x) ≤ l.countP p + l.countP q := by
  induction l with
  | nil => simp
  | cons a t ih =>
      by_cases hp : p a
      · by_cases hq : q a
        · simp [List.countP_cons, hp, hq]
          omega
        · simp [List.countP_cons, hp, hq]
          omega
      · by_cases hq : q a
        · simp [List.countP_cons, hp, hq]
          omega
        · simp [List.countP_cons, hp, hq]
          omega

theorem findUnusedFrom_sound (parent : List Int) (parentIdx : Nat) (used : List Int)
    (v : Int) (nextP : Nat)
    (h : findUnusedFrom parent parentIdx used = some (v, nextP)) :
    v ∈ parent ∧ used.contains v = false := by
  unfold findUnusedFrom at h
  obtain ⟨k, hk, hsome⟩ := List.exists_of_findSome?_eq_some h
  simp only [] at hsome
  by_cases hc : used.contains (parent.getD ((parentIdx + k) % parent.length) 0)
  · rw [if_pos hc] at hsome
    exact absurd hsome (by simp)
  · rw [if_neg hc] at hsome
    simp only [Option.some.injEq, Prod.mk.injEq] at hsome
    have hL : 0 < parent.length := by
      have := List.mem_range.mp hk
      omega
    have hmem := getD_mem parent ((parentIdx + k) % parent.length) 0
      (Nat.mod_lt _ hL)
    rw [hsome.1] at hmem hc
    refine ⟨hmem, ?_⟩
    cases hcc : used.contains v
    · rfl
    · exact absurd hcc hc

theorem findUnusedFrom_complete (parent : List Int) (parentIdx : Nat)
    (used : List Int) (hex : ∃ v ∈ parent, used.contains v = false) :
    ∃ v nextP, findUnusedFrom parent parentIdx used = some (v, nextP) := by
  obtain ⟨v, hv, hc⟩ := hex
  obtain ⟨i0, hi0, hval⟩ := List.mem_iff_getElem.mp hv
  have hL : 0 < parent.length := by omega
  cases hfind : findUnusedFrom parent parentIdx used with
  | some pr => exact ⟨pr.1, pr.2, by rw [Prod.mk.eta]⟩
  | none =>
      exfalso
      unfold findUnusedFrom at hfind
      rw [List.findSome?_eq_none_iff] at hfind
      have hr : parentIdx % parent.length < parent.length := Nat.mod_lt _ hL
      have hkL : (i0 + parent.length - parentIdx % parent.length) %
          parent.length < parent.length := Nat.mod_lt _ hL
      have hmod : (parentIdx + (i0 + parent.length - parentIdx % parent.length) %
          parent.length) % parent.length = i0 := by
        rw [Nat.add_mod parentIdx _ parent.length,
          Nat.mod_mod_of_dvd _ (dvd_refl _), Nat.add_mod_mod]
        have harith : parentIdx % parent.length +
            (i0 + parent.length - parentIdx % parent.length) =
            i0 + parent.length := by omega
        rw [harith, Nat.add_mod_right, Nat.mod_eq_of_lt hi0]
      have hcontr := hfind _ (List.mem_range.mpr hkL)
      simp only [hmod] at hcontr
      have hgd : parent.getD i0 0 = v := by
        rw [List.getD_eq_getElem _ _ hi0, hval]
      rw [hgd, hc] at hcontr
      simp at hcontr

theorem fillLoop_valid (parent : List Int) (L rc : Nat)
    (hL : 0 < L) (hparlen : parent.length = L) (hparnd : parent.Nodup)
    (hparmem : ∀ x ∈ parent, 0 ≤ x ∧ x < ((rc : Nat) : Int)) :
    ∀ (m w : Nat) (child : List Int) (childIdx parentIdx : Nat) (used : List Int),
      w ≤ m →
      child.length = L →
      childIdx < L →
      w ≤ L →
      (∀ k, k < L → (child.getD k 0 = -1 ↔ ∃ t, t < w ∧ k = (childIdx + t) % L)) →
      (∀ x ∈ child, x = -1 ∨ (0 ≤ x ∧ x < ((rc : Nat) : Int))) →
      (∀ x ∈ child, x ≠ -1 → x ∈ used) →
      (∀ k1 k2, k1 < L → k2 < L → k1 ≠ k2 → child.getD k1 0 ≠ -1 →
        child.getD k2 0 ≠ -1 → child.getD k1 0 ≠ child.getD k2 0) →
      (w + (parent.filter fun v => used.contains v).length ≤ L) →
      (fillLoop parent m child childIdx parentIdx used).length = L ∧
        (fillLoop parent m child childIdx parentIdx used).Nodup ∧
        (∀ x ∈ fillLoop parent m child childIdx parentIdx used,
          0 ≤ x ∧ x < ((rc : Nat) : Int)) := by
  have final : ∀ (child : List Int), child.length = L →
      (∀ k, k < L → child.getD k 0 ≠ -1) →
      (∀ x ∈ child, x = -1 ∨ (0 ≤ x ∧ x < ((rc : Nat) : Int))) →
      (∀ k1 k2, k1 < L → k2 < L → k1 ≠ k2 → child.getD k1 0 ≠ -1 →
        child.getD k2 0 ≠ -1 → child.getD k1 0 ≠ child.getD k2 0) →
      child.length = L ∧ child.Nodup ∧
        (∀ x ∈ child, 0 ≤ x ∧ x < ((rc : Nat) : Int)) := by
    intro child hclen hno hE hG
    have hmem : ∀ x ∈ child, 0 ≤ x ∧ x < ((rc : Nat) : Int) := by
      intro x hx
      obtain ⟨k, hk, hval⟩ := List.mem_iff_getElem.mp hx
      rcases hE x hx with h1 | h1
      · exfalso
        have hgd : child.getD k 0 = -1 := by
          rw [List.getD_eq_getElem _ _ hk, hval, h1]
        exact hno k (by omega) hgd
      · exact h1
    refine ⟨hclen, ?_, hmem⟩
    rw [List.nodup_iff_injective_get]
    intro a b heq
    obtain ⟨k1, h1⟩ := a
    obtain ⟨k2, h2⟩ := b
    by_contra hne
    have hne' : k1 ≠ k2 := fun h => hne (Fin.ext h)
    have hk1L : k1 < L := by omega
    have hk2L : k2 < L := by omega
    have e1 : child.getD k1 0 = child.get ⟨k1, h1⟩ := by
      rw [List.getD_eq_getElem _ _ h1]
      rfl
    have e2 : child.getD k2 0 = child.get ⟨k2, h2⟩ := by
      rw [List.getD_eq_getElem _ _ h2]
      rfl
    exact hG k1 k2 hk1L hk2L hne' (hno k1 hk1L) (hno k2 hk2L)
      (by rw [e1, e2, heq])
  intro m
  induction m with
  | zero =>
      intro w child childIdx parentIdx used hwm hclen hci hwL hD hE hF hG hH
      have hw0 : w = 0 := Nat.le_zero.mp hwm
      subst hw0
      have hno : ∀ k, k < L → child.getD k 0 ≠ -1 := by
        intro k hk h
        obtain ⟨t, ht, _⟩ := (hD k hk).mp h
        omega
      exact final child hclen hno hE hG
  | succ m ih =>
      intro w child childIdx parentIdx used hwm hclen hci hwL hD hE hF hG hH
      cases w with
      | zero =>
          have hno : ∀ k, k < L → child.getD k 0 ≠ -1 := by
            intro k hk h
            obtain ⟨t, ht, _⟩ := (hD k hk).mp h
            omega
          have hcont : child.contains (-1) = false := by
            rw [contains_false_iff]
            intro hm
            obtain ⟨k, hk, hval⟩ := List.mem_iff_getElem.mp hm
            refine hno k (by omega) ?_
            rw [List.getD_eq_getElem _ _ hk, hval]
          rw [fillLoop, if_neg (by rw [hcont]; simp)]
          exact final child hclen hno hE hG
      | succ w' =>
          have hw'L : w' + 1 ≤ L := hwL
          have hcichild : childIdx < child.length := by omega
          have hcd : child.getD childIdx 0 = -1 := by
            refine (hD childIdx hci).mpr ⟨0, by omega, ?_⟩
            rw [Nat.add_zero, Nat.mod_eq_of_lt hci]
          have hcont : child.contains (-1) = true := by
            refine List.elem_iff.mpr ?_
            have := getD_mem child childIdx 0 hcichild
            rw [hcd] at this
            exact this
          have hex : ∃ v ∈ parent, used.contains v = false := by
            by_contra hall
            push_neg at hall
            have hallT : ∀ v ∈ parent, used.contains v = true := by
              intro v hv
              cases hc : used.contains v
              · exact absurd hc (hall v hv)
              · rfl
            have : parent.filter (fun v => used.contains v) = parent :=
              List.filter_eq_self.mpr hallT
            rw [this, hparlen] at hH
            omega
          obtain ⟨v, nextP, hfind⟩ := findUnusedFrom_complete parent parentIdx used hex
          rw [fillLoop, if_pos (by rw [hcont]), hfind]
          obtain ⟨hvmem, hvunused⟩ := findUnusedFrom_sound _ _ _ _ _ hfind
          obtain ⟨hv0, hvrc⟩ := hparmem v hvmem
          have hvne : v ≠ -1 := by omega
          have hvnotin : v ∉ used := (contains_false_iff _ _).mp hvunused
          have hsetlen : (child.set childIdx v).length = child.length := by simp
          rw [hclen]
          refine ih w' (child.set childIdx v) ((childIdx + 1) % L) nextP (v :: used)
            (by omega) (by rw [hsetlen, hclen]) (Nat.mod_lt _ hL) (by omega)
            ?_ ?_ ?_ ?_ ?_
          · -- window shift
            intro k hk
            by_cases hkc : k = childIdx
            · rw [hkc, getD_set_self _ _ _ _ hcichild]
              constructor
              · intro hv1
                exact absurd hv1 hvne
              · rintro ⟨t, ht, hkt⟩
                exfalso
                rw [Nat.mod_add_mod] at hkt
                have hu2 : childIdx + 1 + t < 2 * L := by omega
                rw [mod_two_windows _ _ hu2] at hkt
                split at hkt <;> omega
            · rw [getD_set_ne _ _ _ _ _ (fun h => hkc h.symm)]
              rw [hD k hk]
              constructor
              · rintro ⟨t, ht, hkt⟩
                cases t with
                | zero =>
                    exfalso
                    rw [Nat.add_zero, Nat.mod_eq_of_lt hci] at hkt
                    exact hkc hkt
                | succ t' =>
                    refine ⟨t', by omega, ?_⟩
                    rw [Nat.mod_add_mod]
                    rw [show childIdx + 1 + t' = childIdx + (t' + 1) from by omega]
                    exact hkt
              · rintro ⟨t, ht, hkt⟩
                refine ⟨t + 1, by omega, ?_⟩
                rw [Nat.mod_add_mod] at hkt
                rw [show childIdx + (t + 1) = childIdx + 1 + t from by omega]
                exact hkt
          · -- value range
            intro x hx
            rcases List.mem_or_eq_of_mem_set hx with hx | hx
            · exact hE x hx
            · subst hx
              exact Or.inr ⟨hv0, hvrc⟩
          · -- used coverage
            intro x hx hxne
            rcases List.mem_or_eq_of_mem_set hx with hx | hx
            · exact List.mem_cons_of_mem _ (hF x hx hxne)
            · subst hx
              exact List.mem_cons_self _ _
          · -- pairwise distinct
            intro k1 k2 hk1 hk2 hne hv1 hv2
            by_cases hc1 : k1 = childIdx
            · rw [hc1, getD_set_self _ _ _ _ hcichild] at hv1 ⊢
              have hc2 : k2 ≠ childIdx := fun h => hne (hc1.trans h.symm)
              rw [getD_set_ne _ _ _ _ _ (fun h => hc2 h.symm)] at hv2 ⊢
              intro heq
              have hmemu : child.getD k2 0 ∈ used :=
                hF _ (getD_mem child k2 0 (by omega)) hv2
              rw [← heq] at hmemu
              exact hvnotin hmemu
            · rw [getD_set_ne _ _ _ _ _ (fun h => hc1 h.symm)] at hv1 ⊢
              by_cases hc2 : k2 = childIdx
              · rw [hc2, getD_set_self _ _ _ _ hcichild] at hv2 ⊢
                intro heq
                have hmemu : child.getD k1 0 ∈ used :=
                  hF _ (getD_mem child k1 0 (by omega)) hv1
                rw [heq] at hmemu
                exact hvnotin hmemu
              · rw [getD_set_ne _ _ _ _ _ (fun h => hc2 h.symm)] at hv2 ⊢
                exact hG k1 k2 hk1 hk2 hne hv1 hv2
          · -- bounded used growth
            have hsplit : (parent.filter fun x => (v :: used).contains x).length ≤
                (parent.filter fun x => used.contains x).length + 1 := by
              have hpred : ∀ x ∈ parent,
                  ((v :: used).contains x) = ((x == v) || used.contains x) := by
                intro x _
                rfl
              have hre : (parent.filter fun x => (v :: used).contains x) =
                  parent.filter fun x => (x == v) || used.contains x :=
                List.filter_congr hpred
              rw [hre, ← List.countP_eq_length_filter]
              have hle := countP_or_le parent (fun x => x == v)
                (fun x => used.contains x)
              have hcnt : (parent.countP fun x => x == v) ≤ 1 := by
                have := List.nodup_iff_count_le_one.mp hparnd v
                simpa [List.count] using this
              rw [← List.countP_eq_length_filter]
              omega
            omega

theorem segChild_getD (p : List Nat) (s e k : Nat) (hk : k < p.length) :
    (segChild p s e).getD k 0 =
      if s ≤ k ∧ k ≤ e then ((p.getD k 0 : Nat) : Int) else -1 := by
  unfold segChild
  have hk' : k < ((List.range p.length).map fun i =>
      if s ≤ i ∧ i ≤ e then ((p.getD i 0 : Nat) : Int) else -1).length := by
    simpa using hk
  rw [List.getD_eq_getElem _ _ hk']
  simp

theorem window_iff (n s e k : Nat) (hn : 0 < n) (hse : s ≤ e) (he : e < n)
    (hk : k < n) :
    (¬(s ≤ k ∧ k ≤ e)) ↔
      ∃ t, t < n - (e + 1 - s) ∧ k = ((e + 1) % n + t) % n := by
  constructor
  · intro hout
    by_cases hks : k < s
    · refine ⟨k + n - e - 1, by omega, ?_⟩
      rw [Nat.mod_add_mod]
      have harith : e + 1 + (k + n - e - 1) = k + n := by omega
      rw [harith, Nat.add_mod_right, Nat.mod_eq_of_lt hk]
    · have hek : e < k := by
        rcases Nat.lt_or_ge e k with h | h
        · exact h
        · exact absurd ⟨by omega, h⟩ hout
      refine ⟨k - e - 1, by omega, ?_⟩
      rw [Nat.mod_add_mod]
      have harith : e + 1 + (k - e - 1) = k := by omega
      rw [harith, Nat.mod_eq_of_lt hk]
  · rintro ⟨t, ht, hkt⟩
    rw [Nat.mod_add_mod] at hkt
    have hu : e + 1 + t < 2 * n := by omega
    rw [mod_two_windows _ _ hu] at hkt
    split at hkt
    · omega
    · omega

theorem mapInt_valid (rows cols n : Nat) (p : List Nat)
    (h : ValidAssignment rows cols n p) :
    ValidAssignmentInt rows cols n (p.map Int.ofNat) := by
  obtain ⟨hlen, hnd, hmem⟩ := h
  refine ⟨?_, ?_, ?_⟩
  · rw [List.length_map]
    exact hlen
  · refine List.Nodup.map ?_ hnd
    intro a b hab
    exact Int.ofNat.inj hab
  · intro x hx
    obtain ⟨y, hy, rfl⟩ := List.mem_map.mp hx
    have hyb := hmem y hy
    constructor
    · exact Int.natCast_nonneg y
    · show ((y : Nat) : Int) < ((rows * cols : Nat) : Int)
      exact_mod_cast hyb

theorem fillCrossoverChild_valid (rows cols n : Nat) (pa pb : List Nat)
    (startIdx endIdx : Nat)
    (hva : ValidAssignment rows cols n pa) (hvb : ValidAssignment rows cols n pb)
    (hn : 0 < n) (hse : startIdx ≤ endIdx) (he : endIdx < n) :
    ValidAssignmentInt rows cols n
      (fillCrossoverChild (segChild pa startIdx endIdx)
        (pb.map Int.ofNat) endIdx) := by
  obtain ⟨halen, hand, hamem⟩ := hva
  have hpbI := mapInt_valid rows cols n pb hvb
  obtain ⟨hblen, hbnd, hbmem⟩ := hpbI
  have hclen : (segChild pa startIdx endIdx).length = n := by
    unfold segChild
    simpa using halen
  have hgd : ∀ k, k < n → (segChild pa startIdx endIdx).getD k 0 =
      if startIdx ≤ k ∧ k ≤ endIdx then ((pa.getD k 0 : Nat) : Int) else -1 := by
    intro k hk
    exact segChild_getD pa startIdx endIdx k (by omega)
  have husedlen : ((segChild pa startIdx endIdx).filter fun x => x ≠ -1).length =
      endIdx + 1 - startIdx := by
    rw [← List.countP_eq_length_filter]
    unfold segChild
    rw [List.countP_map]
    have hcongr : ∀ k ∈ List.range pa.length,
        ((((fun x => decide (x ≠ -1)) ∘ fun i =>
          if startIdx ≤ i ∧ i ≤ endIdx then ((pa.getD i 0 : Nat) : Int) else -1) k)
          = true) ↔
        ((decide (startIdx ≤ k) && decide (k ≤ endIdx)) = true) := by
      intro k _
      simp only [Function.comp]
      by_cases h1 : startIdx ≤ k
      · by_cases h2 : k ≤ endIdx
        · simp [h1, h2]
        · simp [h1, h2]
      · simp [h1]
    rw [List.countP_congr hcongr, countP_range_window, halen]
    omega
  have hD : ∀ k, k < n → ((segChild pa startIdx endIdx).getD k 0 = -1 ↔
      ∃ t, t < n - (endIdx + 1 - startIdx) ∧ k = ((endIdx + 1) % n + t) % n) := by
    intro k hk
    rw [hgd k hk]
    by_cases hseg : startIdx ≤ k ∧ k ≤ endIdx
    · rw [if_pos hseg]
      constructor
      · intro hcast
        exfalso
        omega
      · intro hwin
        exact absurd hseg
          ((window_iff n startIdx endIdx k hn hse he hk).mpr hwin)
    · rw [if_neg hseg]
      constructor
      · intro _
        exact (window_iff n startIdx endIdx k hn hse he hk).mp hseg
      · intro _
        rfl
  have hE : ∀ x ∈ segChild pa startIdx endIdx,
      x = -1 ∨ (0 ≤ x ∧ x < ((rows * cols : Nat) : Int)) := by
    intro x hx
    unfold segChild at hx
    obtain ⟨k, hk, rfl⟩ := List.mem_map.mp hx
    have hkn : k < pa.length := List.mem_range.mp hk
    split
    · right
      constructor
      · positivity
      · have := hamem (pa.getD k 0) (getD_mem pa k 0 hkn)
        exact_mod_cast this
    · left
      rfl
  have hF : ∀ x ∈ segChild pa startIdx endIdx, x ≠ -1 →
      x ∈ (segChild pa startIdx endIdx).filter fun x => x ≠ -1 := by
    intro x hx hxne
    exact List.mem_filter.mpr ⟨hx, by simpa using hxne⟩
  have hG : ∀ k1 k2, k1 < n → k2 < n → k1 ≠ k2 →
      (segChild pa startIdx endIdx).getD k1 0 ≠ -1 →
      (segChild pa startIdx endIdx).getD k2 0 ≠ -1 →
      (segChild pa startIdx endIdx).getD k1 0 ≠
        (segChild pa startIdx endIdx).getD k2 0 := by
    intro k1 k2 hk1 hk2 hne hv1 hv2
    rw [hgd k1 hk1] at hv1 ⊢
    rw [hgd k2 hk2] at hv2 ⊢
    by_cases hs1 : startIdx ≤ k1 ∧ k1 ≤ endIdx
    · by_cases hs2 : startIdx ≤ k2 ∧ k2 ≤ endIdx
      · rw [if_pos hs1, if_pos hs2]
        intro heq
        have hvals : pa.getD k1 0 = pa.getD k2 0 := by exact_mod_cast heq
        have hb1 : k1 < pa.length := by omega
        have hb2 : k2 < pa.length := by omega
        have e1 : pa.getD k1 0 = pa.get ⟨k1, hb1⟩ := by
          rw [List.getD_eq_getElem _ _ hb1]
          rfl
        have e2 : pa.getD k2 0 = pa.get ⟨k2, hb2⟩ := by
          rw [List.getD_eq_getElem _ _ hb2]
          rfl
        rw [e1, e2] at hvals
        have := List.nodup_iff_injective_get.mp hand hvals
        exact hne (by simpa using this)
      · rw [if_neg hs2] at hv2
        exact absurd rfl hv2
    · rw [if_neg hs1] at hv1
      exact absurd rfl hv1
  have hH : (n - (endIdx + 1 - startIdx)) +
      ((pb.map Int.ofNat).filter fun v =>
        ((segChild pa startIdx endIdx).filter fun x => x ≠ -1).contains v).length
      ≤ n := by
    have hsub : ((pb.map Int.ofNat).filter fun v =>
        ((segChild pa startIdx endIdx).filter fun x => x ≠ -1).contains v).length ≤
        endIdx + 1 - startIdx := by
      rw [← husedlen]
      refine nodup_subset_length (hbnd.filter _) ?_
      intro x hx
      have := List.mem_filter.mp hx
      exact List.elem_iff.mp this.2
    omega
  unfold fillCrossoverChild
  rw [hclen]
  have hres := fillLoop_valid (pb.map Int.ofNat) n (rows * cols) hn
    hblen hbnd hbmem n (n - (endIdx + 1 - startIdx)) (segChild pa startIdx endIdx)
    ((endIdx + 1) % n) ((endIdx + 1) % n)
    ((segChild pa startIdx endIdx).filter fun x => x ≠ -1)
    (by omega) hclen (Nat.mod_lt _ hn) (by omega) hD hE hF hG hH
  exact ⟨hres.1, hres.2.1, hres.2.2⟩

theorem crossover_valid (rows cols n : Nat) (p1 p2 : List Nat)
    (noCross : Bool) (startIdx endIdx : Nat)
    (hv1 : ValidAssignment rows cols n p1) (hv2 : ValidAssignment rows cols n p2)
    (hn : 0 < n) (hse : startIdx ≤ endIdx) (he : endIdx < n) :
    ValidAssignmentInt rows cols n (crossover p1 p2 noCross startIdx endIdx).1 ∧
    ValidAssignmentInt rows cols n (crossover p1 p2 noCross startIdx endIdx).2 := by
  unfold crossover
  split
  · exact ⟨mapInt_valid rows cols n p1 hv1, mapInt_valid rows cols n p2 hv2⟩
  · exact ⟨fillCrossoverChild_valid rows cols n p1 p2 startIdx endIdx hv1 hv2
      hn hse he,
      fillCrossoverChild_valid rows cols n p2 p1 startIdx endIdx hv2 hv1
      hn hse he⟩

/-- `this.groups.get(g)`, with the missing-group fallback `[]` of the greedy
comparator (`?.length || 0`). -/
def groupMembers (attendees : List Attendee) (g : String) : List Nat :=
  (((groupsOf attendees).find? fun gm => gm.1 = g).map fun gm => gm.2).getD []

/-- The greedy placement score of one free seat for one attendee: VIP-seat
bonus or penalty, priority-weighted closeness, zone-preference bonus, and
attraction to already-placed same-group members. -/
noncomputable def greedyScore (rows cols vipRows : Nat) (attendees : List Attendee)
    (attendee : Attendee) (chrom : List Int) (seatPos : Nat) : Real :=
  let seat := seatAt rows cols vipRows seatPos
  let vipPart : Real :=
    if attendee.type = "vip" then (if seat.isVip then 200 else -100) else 0
  let priorityPart : Real :=
    200 * ((attendee.priority / 10 : Rat) : Real) / (distanceToStage cols seat + 1)
  let prefPart : Real :=
    if attendee.preference = "front" ∧ ((seat.row : Rat) < (rows : Rat) / 3) then 50
    else if attendee.preference = "middle" ∧ ((rows : Rat) / 3 ≤ (seat.row : Rat) ∧
      (seat.row : Rat) < 2 * (rows : Rat) / 3) then 50
    else if attendee.preference = "back" ∧ (2 * (rows : Rat) / 3 ≤ (seat.row : Rat))
      then 50
    else 0
  let groupPart : Real :=
    match attendee.group with
    | none => 0
    | some g =>
        if (groupsOf attendees).any fun gm => gm.1 = g then
          ((groupMembers attendees g).map fun memberIdx =>
            if chrom.getD memberIdx (-1) ≠ -1 then
              max 0 (100 - 20 * ((getSeatDistance seat
                (seatAt rows cols vipRows (chrom.getD memberIdx (-1)).toNat) : Nat) : Real))
            else 0).sum
        else 0
  vipPart + priorityPart + prefPart + groupPart

/-- One seat consideration of the inner scan of `generateGreedySolution`:
skip used seats, otherwise keep the seat when its score strictly exceeds the
best so far (the initial best score is `-Infinity`, modelled by `none`). -/
noncomputable def greedyStep (rows cols vipRows : Nat) (attendees : List Attendee)
    (attendee : Attendee) (chrom : List Int) (used : List Int)
    (acc : Int × Option Real) (seatPos : Nat) : Int × Option Real :=
  if used.contains (Int.ofNat seatPos) then acc
  else
    match acc.2 with
    | none => (Int.ofNat seatPos,
        some (greedyScore rows cols vipRows attendees attendee chrom seatPos))
    | some b =>
        if b < greedyScore rows cols vipRows attendees attendee chrom seatPos then
          (Int.ofNat seatPos,
            some (greedyScore rows cols vipRows attendees attendee chrom seatPos))
        else acc

/-- The inner seat scan of `generateGreedySolution` over all seat positions. -/
noncomputable def greedyBestSeat (rows cols vipRows : Nat) (attendees : List Attendee)
    (attendee : Attendee) (chrom : List Int) (used : List Int) : Int :=
  ((List.range (rows * cols)).foldl
    (greedyStep rows cols vipRows attendees attendee chrom used) (-1, none)).1

/-- The defensive fallback of `generateGreedySolution`: the first free seat,
or `-1` when none is free. -/
def firstFreeSeat (total : Nat) (used : List Int) : Int :=
  match (List.range total).find? fun s => !used.contains (Int.ofNat s) with
  | some s => Int.ofNat s
  | none => -1

/-- The JS sort comparator of `generateGreedySolution`: VIPs first, then
higher priority, then larger group. -/
def greedyCmp (attendees : List Attendee) (x y : Attendee × Nat) : Rat :=
  if x.1.type = "vip" ∧ ¬(y.1.type = "vip") then -1
  else if ¬(x.1.type = "vip") ∧ y.1.type = "vip" then 1
  else if ¬(x.1.priority = y.1.priority) then y.1.priority - x.1.priority
  else
    (match y.1.group with
      | some g => ((groupMembers attendees g).length : Rat)
      | none => 0) -
    (match x.1.group with
      | some g => ((groupMembers attendees g).length : Rat)
      | none => 0)

/-- The attendee processing order of `generateGreedySolution`. -/
def sortedIndices (attendees : List Attendee) : List Nat :=
  ((attendees.enum.map fun p => (p.2, p.1)).mergeSort fun x y =>
    decide (greedyCmp attendees x y ≤ 0)).map fun p => p.2

/-- One placement step of `generateGreedySolution`: the attendee at
`attendeeIdx` takes its best-scoring free seat (first free seat as fallback
when the scan returned `-1`), which is recorded as used. -/
noncomputable def greedyPlace (rows cols vipRows : Nat) (attendees : List Attendee)
    (st : List Int × List Int) (attendeeIdx : Nat) : List Int × List Int :=
  let attendee := attendees.getD attendeeIdx regularAttendee
  let best := greedyBestSeat rows cols vipRows attendees attendee st.1 st.2
  let best2 := if best = -1 then firstFreeSeat (rows * cols) st.2 else best
  (st.1.set attendeeIdx best2, best2 :: st.2)

/-- `generateGreedySolution`: place attendees in sorted order, each on its
best-scoring free seat, collecting used seats. -/
noncomputable def generateGreedySolution (rows cols vipRows : Nat)
    (attendees : List Attendee) : List Int :=
  ((sortedIndices attendees).foldl (greedyPlace rows cols vipRows attendees)
    (List.replicate attendees.length (-1), ([] : List Int))).1

/-- Invariant of the placement fold of `generateGreedySolution`: `rest` is the
list of attendee indices still to place, `st.1` the partial chromosome and
`st.2` the used-seat list. -/
def GreedyInv (rows cols N : Nat) (rest : List Nat) (st : List Int × List Int) :
    Prop :=
  st.1.length = N ∧
  (∀ i ∈ rest, i < N) ∧
  rest.Nodup ∧
  (∀ i ∈ rest, st.1.getD i 0 = -1) ∧
  (∀ k, k < N → st.1.getD k 0 = -1 → k ∈ rest) ∧
  (∀ x ∈ st.1, x = -1 ∨ (0 ≤ x ∧ x < ((rows * cols : Nat) : Int))) ∧
  (∀ x ∈ st.1, x ≠ -1 → x ∈ st.2) ∧
  (∀ k1 k2, k1 < N → k2 < N → k1 ≠ k2 → st.1.getD k1 0 ≠ -1 →
    st.1.getD k2 0 ≠ -1 → st.1.getD k1 0 ≠ st.1.getD k2 0) ∧
  st.2.Nodup ∧
  st.2.length + rest.length ≤ rows * cols

theorem exists_free_seat (rc : Nat) (used : List Int) (hnd : used.Nodup)
    (hlen : used.length < rc) :
    ∃ s, s < rc ∧ used.contains (Int.ofNat s) = false := by
  by_contra h
  push_neg at h
  have hmem : ∀ s, s < rc → Int.ofNat s ∈ used := by
    intro s hs
    have := h s hs
    cases hc : used.contains (Int.ofNat s)
    · exact absurd hc this
    · exact List.elem_iff.mp hc
  have hsub : (List.range rc).map Int.ofNat ⊆ used := by
    intro x hx
    obtain ⟨s, hs, rfl⟩ := List.mem_map.mp hx
    exact hmem s (List.mem_range.mp hs)
  have hnd2 : ((List.range rc).map Int.ofNat).Nodup :=
    (List.nodup_range rc).map fun a b hab => Int.ofNat.inj hab
  have := nodup_subset_length hnd2 hsub
  rw [List.length_map, List.length_range] at this
  omega

theorem greedyStep_cases (rows cols vipRows : Nat) (attendees : List Attendee)
    (attendee : Attendee) (chrom : List Int) (used : List Int)
    (acc : Int × Option Real) (seatPos : Nat) :
    greedyStep rows cols vipRows attendees attendee chrom used acc seatPos = acc ∨
    (used.contains (Int.ofNat seatPos) = false ∧
      greedyStep rows cols vipRows attendees attendee chrom used acc seatPos =
        (Int.ofNat seatPos,
          some (greedyScore rows cols vipRows attendees attendee chrom seatPos))) := by
  unfold greedyStep
  cases hcb : used.contains (Int.ofNat seatPos) with
  | true => simp
  | false =>
      rw [if_neg (by simp : ¬(false = true))]
      split
      · exact Or.inr ⟨rfl, rfl⟩
      · split
        · exact Or.inr ⟨rfl, rfl⟩
        · exact Or.inl rfl

theorem greedyStep_found (rows cols vipRows : Nat) (attendees : List Attendee)
    (attendee : Attendee) (chrom : List Int) (used : List Int)
    (acc : Int × Option Real) (seatPos : Nat)
    (h : acc.2 ≠ none ∨ used.contains (Int.ofNat seatPos) = false) :
    (greedyStep rows cols vipRows attendees attendee chrom used acc seatPos).2 ≠
      none := by
  unfold greedyStep
  cases hcb : used.contains (Int.ofNat seatPos) with
  | true =>
      rw [if_pos rfl]
      rcases h with h | h
      · exact h
      · rw [h] at hcb; exact absurd hcb (by simp)
  | false =>
      rw [if_neg (by simp : ¬(false = true))]
      split
      next heq => simp
      next b heq =>
        split
        · simp
        · rw [heq]; simp

theorem greedyStep_inv (rows cols vipRows : Nat) (attendees : List Attendee)
    (attendee : Attendee) (chrom : List Int) (used : List Int)
    (acc : Int × Option Real) (seatPos : Nat) (hs : seatPos < rows * cols)
    (hinv : (acc.1 = -1 ∧ acc.2 = none) ∨
      ∃ s, acc.1 = Int.ofNat s ∧ s < rows * cols ∧
        used.contains (Int.ofNat s) = false) :
    ((greedyStep rows cols vipRows attendees attendee chrom used acc seatPos).1 = -1 ∧
      (greedyStep rows cols vipRows attendees attendee chrom used acc seatPos).2 = none) ∨
    ∃ s, (greedyStep rows cols vipRows attendees attendee chrom used acc seatPos).1 =
        Int.ofNat s ∧ s < rows * cols ∧ used.contains (Int.ofNat s) = false := by
  rcases greedyStep_cases rows cols vipRows attendees attendee chrom used acc seatPos
    with h | ⟨hcf, h⟩
  · rw [h]; exact hinv
  · rw [h]; exact Or.inr ⟨seatPos, rfl, hs, hcf⟩

theorem greedyFold_inv (rows cols vipRows : Nat) (attendees : List Attendee)
    (attendee : Attendee) (chrom : List Int) (used : List Int) :
    ∀ (l : List Nat) (acc : Int × Option Real),
      (∀ s ∈ l, s < rows * cols) →
      ((acc.1 = -1 ∧ acc.2 = none) ∨
        ∃ s, acc.1 = Int.ofNat s ∧ s < rows * cols ∧
          used.contains (Int.ofNat s) = false) →
      ((l.foldl (greedyStep rows cols vipRows attendees attendee chrom used) acc).1 =
          -1 ∧
        (l.foldl (greedyStep rows cols vipRows attendees attendee chrom used) acc).2 =
          none) ∨
      ∃ s, (l.foldl (greedyStep rows cols vipRows attendees attendee chrom used)
          acc).1 = Int.ofNat s ∧ s < rows * cols ∧
        used.contains (Int.ofNat s) = false := by
  intro l
  induction l with
  | nil => intro acc _ hinv; exact hinv
  | cons a rest ih =>
      intro acc hl hinv
      exact ih _ (fun s hs => hl s (List.mem_cons_of_mem _ hs))
        (greedyStep_inv rows cols vipRows attendees attendee chrom used acc a
          (hl a (List.mem_cons_self _ _)) hinv)

theorem greedyFold_some (rows cols vipRows : Nat) (attendees : List Attendee)
    (attendee : Attendee) (chrom : List Int) (used : List Int) :
    ∀ (l : List Nat) (acc : Int × Option Real), acc.2 ≠ none →
      (l.foldl (greedyStep rows cols vipRows attendees attendee chrom used)
        acc).2 ≠ none := by
  intro l
  induction l with
  | nil => intro acc h; exact h
  | cons a rest ih =>
      intro acc h
      exact ih _ (greedyStep_found rows cols vipRows attendees attendee chrom used
        acc a (Or.inl h))

theorem greedyFold_found (rows cols vipRows : Nat) (attendees : List Attendee)
    (attendee : Attendee) (chrom : List Int) (used : List Int) :
    ∀ (l : List Nat) (acc : Int × Option Real) (s : Nat), s ∈ l →
      used.contains (Int.ofNat s) = false →
      (l.foldl (greedyStep rows cols vipRows attendees attendee chrom used)
        acc).2 ≠ none := by
  intro l
  induction l with
  | nil => intro acc s hs _; simp at hs
  | cons a rest ih =>
      intro acc s hs hcf
      rcases List.mem_cons.mp hs with hsa | hsr
      · subst hsa
        exact greedyFold_some rows cols vipRows attendees attendee chrom used rest _
          (greedyStep_found rows cols vipRows attendees attendee chrom used
            acc s (Or.inr hcf))
      · exact ih _ s hsr hcf

theorem greedyBestSeat_spec (rows cols vipRows : Nat) (attendees : List Attendee)
    (attendee : Attendee) (chrom : List Int) (used : List Int)
    (hex : ∃ s, s < rows * cols ∧ used.contains (Int.ofNat s) = false) :
    ∃ s, greedyBestSeat rows cols vipRows attendees attendee chrom used =
        Int.ofNat s ∧ s < rows * cols ∧ used.contains (Int.ofNat s) = false := by
  obtain ⟨s0, hs0, hcf0⟩ := hex
  have hsome := greedyFold_found rows cols vipRows attendees attendee chrom used
    (List.range (rows * cols)) (-1, none) s0 (List.mem_range.mpr hs0) hcf0
  have hinv := greedyFold_inv rows cols vipRows attendees attendee chrom used
    (List.range (rows * cols)) (-1, none)
    (fun s hs => List.mem_range.mp hs) (Or.inl ⟨rfl, rfl⟩)
  rcases hinv with ⟨_, h2⟩ | ⟨s, h1, h2, h3⟩
  · exact absurd h2 hsome
  · exact ⟨s, h1, h2, h3⟩

theorem sortedIndices_perm (attendees : List Attendee) :
    (sortedIndices attendees).Perm (List.range attendees.length) := by
  unfold sortedIndices
  have h1 := List.mergeSort_perm (attendees.enum.map fun p => (p.2, p.1))
    fun x y => decide (greedyCmp attendees x y ≤ 0)
  have h2 := h1.map fun p : Attendee × Nat => p.2
  have h3 : (attendees.enum.map ((fun p : Attendee × Nat => p.2) ∘
      fun p : Nat × Attendee => (p.2, p.1))) = List.range attendees.length := by
    have hc : ((fun p : Attendee × Nat => p.2) ∘ fun p : Nat × Attendee => (p.2, p.1)) =
        Prod.fst := rfl
    rw [hc, List.enum_map_fst]
  rw [List.map_map, h3] at h2
  exact h2

theorem getD_replicate_lt (n k : Nat) (a d : Int) (h : k < n) :
    (List.replicate n a).getD k d = a := by
  rw [List.getD_eq_getElem?_getD, List.getElem?_replicate]
  rw [if_pos h]
  rfl

theorem validInt_of_pointwise (rc : Nat) (child : List Int)
    (hno : ∀ k, k < child.length → child.getD k 0 ≠ -1)
    (hE : ∀ x ∈ child, x = -1 ∨ (0 ≤ x ∧ x < ((rc : Nat) : Int)))
    (hG : ∀ k1 k2, k1 < child.length → k2 < child.length → k1 ≠ k2 →
      child.getD k1 0 ≠ -1 → child.getD k2 0 ≠ -1 →
      child.getD k1 0 ≠ child.getD k2 0) :
    child.Nodup ∧ ∀ x ∈ child, 0 ≤ x ∧ x < ((rc : Nat) : Int) := by
  have hmem : ∀ x ∈ child, 0 ≤ x ∧ x < ((rc : Nat) : Int) := by
    intro x hx
    obtain ⟨k, hk, hval⟩ := List.mem_iff_getElem.mp hx
    rcases hE x hx with h1 | h1
    · exfalso
      have hgd : child.getD k 0 = -1 := by
        rw [List.getD_eq_getElem _ _ hk, hval, h1]
      exact hno k hk hgd
    · exact h1
  refine ⟨?_, hmem⟩
  rw [List.nodup_iff_injective_get]
  intro a b heq
  obtain ⟨k1, h1⟩ := a
  obtain ⟨k2, h2⟩ := b
  by_contra hne
  have hne' : k1 ≠ k2 := fun h => hne (Fin.ext h)
  have e1 : child.getD k1 0 = child.get ⟨k1, h1⟩ := by
    rw [List.getD_eq_getElem _ _ h1]
    rfl
  have e2 : child.getD k2 0 = child.get ⟨k2, h2⟩ := by
    rw [List.getD_eq_getElem _ _ h2]
    rfl
  exact hG k1 k2 h1 h2 hne' (hno k1 h1) (hno k2 h2) (by rw [e1, e2, heq])

theorem greedyPlace_inv (rows cols vipRows N : Nat) (attendees : List Attendee)
    (a : Nat) (rest : List Nat) (st : List Int × List Int)
    (hinv : GreedyInv rows cols N (a :: rest) st) :
    GreedyInv rows cols N rest (greedyPlace rows cols vipRows attendees st a) := by
  obtain ⟨ha1, hb, hc, hd, he, hf, hg, hh, hi, hj⟩ := hinv
  have haN : a < N := hb a (List.mem_cons_self _ _)
  have halen : a < st.1.length := by omega
  have hulen : st.2.length < rows * cols := by
    have := List.length_cons a rest
    omega
  obtain ⟨s, hbest, hsRC, hscf⟩ := greedyBestSeat_spec rows cols vipRows attendees
    (attendees.getD a regularAttendee) st.1 st.2
    (exists_free_seat (rows * cols) st.2 hi hulen)
  have hbne : greedyBestSeat rows cols vipRows attendees
      (attendees.getD a regularAttendee) st.1 st.2 ≠ -1 := by
    rw [hbest]
    intro hcontra
    have h0 : (0 : Int) ≤ Int.ofNat s := Int.natCast_nonneg s
    rw [hcontra] at h0
    norm_num at h0
  have hres : greedyPlace rows cols vipRows attendees st a =
      (st.1.set a (Int.ofNat s), Int.ofNat s :: st.2) := by
    simp only [greedyPlace]
    rw [if_neg hbne, hbest]
  have hnotin : Int.ofNat s ∉ st.2 := (contains_false_iff st.2 (Int.ofNat s)).mp hscf
  rw [hres]
  refine ⟨?_, ?_, ?_, ?_, ?_, ?_, ?_, ?_, ?_, ?_⟩
  · simp only [List.length_set]
    exact ha1
  · intro i hi2
    exact hb i (List.mem_cons_of_mem _ hi2)
  · exact hc.of_cons
  · intro i hi2
    have hia : i ≠ a := by
      intro h
      subst h
      exact (List.nodup_cons.mp hc).1 hi2
    rw [getD_set_ne _ _ _ _ _ (fun h => hia h.symm)]
    exact hd i (List.mem_cons_of_mem _ hi2)
  · intro k hkN hk
    by_cases hka : k = a
    · subst hka
      rw [getD_set_self _ _ _ _ halen] at hk
      exfalso
      omega
    · rw [getD_set_ne _ _ _ _ _ (fun h => hka h.symm)] at hk
      rcases List.mem_cons.mp (he k hkN hk) with h | h
      · exact absurd h hka
      · exact h
  · intro x hx
    rcases List.mem_or_eq_of_mem_set hx with h | h
    · exact hf x h
    · subst h
      refine Or.inr ⟨Int.natCast_nonneg s, ?_⟩
      show ((s : Nat) : Int) < ((rows * cols : Nat) : Int)
      exact_mod_cast hsRC
  · intro x hx hxne
    rcases List.mem_or_eq_of_mem_set hx with h | h
    · exact List.mem_cons_of_mem _ (hg x h hxne)
    · subst h
      exact List.mem_cons_self _ _
  · intro k1 k2 hk1 hk2 hne h1 h2
    by_cases hk1a : k1 = a
    · subst hk1a
      have hk2a : k2 ≠ k1 := fun h => hne h.symm
      rw [getD_set_self _ _ _ _ halen]
      rw [getD_set_ne _ _ _ _ _ (fun h => hk2a h.symm)] at h2 ⊢
      have hmem2 : st.1.getD k2 0 ∈ st.1 := getD_mem _ _ _ (by omega)
      have : st.1.getD k2 0 ∈ st.2 := hg _ hmem2 h2
      intro hcontra
      rw [← hcontra] at this
      exact hnotin this
    · by_cases hk2a : k2 = a
      · subst hk2a
        rw [getD_set_self _ _ _ _ halen]
        rw [getD_set_ne _ _ _ _ _ (fun h => hk1a h.symm)] at h1 ⊢
        have hmem1 : st.1.getD k1 0 ∈ st.1 := getD_mem _ _ _ (by omega)
        have : st.1.getD k1 0 ∈ st.2 := hg _ hmem1 h1
        intro hcontra
        rw [hcontra] at this
        exact hnotin this
      · rw [getD_set_ne _ _ _ _ _ (fun h => hk1a h.symm)] at h1 ⊢
        rw [getD_set_ne _ _ _ _ _ (fun h => hk2a h.symm)] at h2 ⊢
        exact hh k1 k2 hk1 hk2 hne h1 h2
  · exact List.nodup_cons.mpr ⟨hnotin, hi⟩
  · have := List.length_cons a rest
    simp only [List.length_cons]
    omega

theorem greedyOuter_inv (rows cols vipRows N : Nat) (attendees : List Attendee) :
    ∀ (rest : List Nat) (st : List Int × List Int),
      GreedyInv rows cols N rest st →
      GreedyInv rows cols N []
        (rest.foldl (greedyPlace rows cols vipRows attendees) st) := by
  intro rest
  induction rest with
  | nil => intro st h; exact h
  | cons a rest ih =>
      intro st h
      exact ih _ (greedyPlace_inv rows cols vipRows N attendees a rest st h)

theorem generateGreedySolution_valid (rows cols vipRows : Nat)
    (attendees : List Attendee) (hle : attendees.length ≤ rows * cols) :
    ValidAssignmentInt rows cols attendees.length
      (generateGreedySolution rows cols vipRows attendees) := by
  set N := attendees.length with hN
  have hperm := sortedIndices_perm attendees
  have hinv0 : GreedyInv rows cols N (sortedIndices attendees)
      (List.replicate N (-1), ([] : List Int)) := by
    refine ⟨List.length_replicate _ _, ?_, ?_, ?_, ?_, ?_, ?_, ?_, List.nodup_nil, ?_⟩
    · intro i hi
      rw [← List.mem_range]
      exact hperm.mem_iff.mp hi
    · exact hperm.nodup_iff.mpr (List.nodup_range N)
    · intro i hi
      have : i < N := by
        rw [← List.mem_range]
        exact hperm.mem_iff.mp hi
      exact getD_replicate_lt _ _ _ _ this
    · intro k hk _
      rw [hperm.mem_iff]
      exact List.mem_range.mpr hk
    · intro x hx
      exact Or.inl (List.eq_of_mem_replicate hx)
    · intro x hx hxne
      exact absurd (List.eq_of_mem_replicate hx) hxne
    · intro k1 k2 hk1 hk2 _ h1 _
      exact absurd (getD_replicate_lt _ _ _ _ hk1) h1
    · simp only [List.length_nil, Nat.zero_add]
      rw [hperm.length_eq, List.length_range]
      exact hle
  have hfin := greedyOuter_inv rows cols vipRows N attendees
    (sortedIndices attendees) _ hinv0
  obtain ⟨ha1, _, _, _, he, hf, _, hh, _, _⟩ := hfin
  have hno : ∀ k, k < ((sortedIndices attendees).foldl
      (greedyPlace rows cols vipRows attendees)
      (List.replicate N (-1), ([] : List Int))).1.length →
      ((sortedIndices attendees).foldl (greedyPlace rows cols vipRows attendees)
        (List.replicate N (-1), ([] : List Int))).1.getD k 0 ≠ -1 := by
    intro k hk h
    exact (List.not_mem_nil k) (he k (by omega) h)
  have hvalid := validInt_of_pointwise (rows * cols) _ hno hf
    (by intro k1 k2 hk1 hk2; exact hh k1 k2 (by omega) (by omega))
  exact ⟨ha1, hvalid.1, hvalid.2⟩

/-- C1 (amended): for a venue of `rows` by `cols` seats, every assignment
produced by a generator (`generateRandomChromosome`, `generateGreedySolution`)
or by an operator (`crossover`, `mutate` provided the chromosome has at least
6 genes, `smartMutate`, the simulated-annealing neighbor step `saNeighbor`)
on valid input is a sequence of `n` pairwise-distinct seat positions, each in
`[0, rows * cols)`. The restriction to chromosomes of length at least 6 in the
`mutate` conjunct is necessary: the block swap corrupts shorter chromosomes
(see the accompanying counterexample). -/
theorem chromosome_invariant_all_operators (rows cols vipRows n : Nat)
    (attendees : List Attendee) :
    (∀ js : Nat → Nat, (∀ k, js k ≤ k) → n ≤ rows * cols →
      ValidAssignment rows cols n (generateRandomChromosome rows cols n js)) ∧
    (attendees.length ≤ rows * cols →
      ValidAssignmentInt rows cols attendees.length
        (generateGreedySolution rows cols vipRows attendees)) ∧
    (∀ (p1 p2 : List Nat) (noCross : Bool) (startIdx endIdx : Nat),
      ValidAssignment rows cols n p1 → ValidAssignment rows cols n p2 →
      0 < n → startIdx ≤ endIdx → endIdx < n →
      ValidAssignmentInt rows cols n (crossover p1 p2 noCross startIdx endIdx).1 ∧
      ValidAssignmentInt rows cols n (crossover p1 p2 noCross startIdx endIdx).2) ∧
    (∀ (a : JsArr) (doSwap : Bool) (idx1 idx2 : Nat) (doBlock : Bool)
        (blockLen : Nat) (s1 s2 : Int),
      JsValid (rows * cols) n a → idx1 < n → idx2 < n →
      2 ≤ blockLen → blockLen ≤ 6 →
      RandFloor ((n : Int) - blockLen) s1 → RandFloor ((n : Int) - blockLen) s2 →
      6 ≤ n →
      JsValid (rows * cols) n (mutate a doSwap idx1 idx2 doBlock blockLen s1 s2)) ∧
    (∀ (chrom : List Nat) (fit : Fitness) (coin1 coin2 : Bool),
      ValidAssignment rows cols n chrom → chrom.length = attendees.length →
      chrom.length = n →
      ValidAssignment rows cols n
        (smartMutate rows cols vipRows attendees chrom fit coin1 coin2)) ∧
    (∀ (chrom : List Nat) (fit : Fitness) (useTargeted : Bool) (i1 i2 : Nat),
      ValidAssignment rows cols n chrom → chrom.length = attendees.length →
      i1 < chrom.length → i2 < chrom.length →
      ValidAssignment rows cols n
        (saNeighbor rows cols vipRows attendees chrom fit useTargeted i1 i2)) := by
  refine ⟨?_, ?_, ?_, ?_, ?_, ?_⟩
  · intro js hjs hn
    exact generateRandomChromosome_valid rows cols n js hjs hn
  · intro hle
    exact generateGreedySolution_valid rows cols vipRows attendees hle
  · intro p1 p2 noCross startIdx endIdx hv1 hv2 hn hse he
    exact crossover_valid rows cols n p1 p2 noCross startIdx endIdx hv1 hv2 hn
      hse he
  · intro a doSwap idx1 idx2 doBlock blockLen s1 s2 h hi1 hi2 hb1 hb2 hs1 hs2 h6
    exact mutate_valid (rows * cols) n a doSwap idx1 idx2 doBlock blockLen s1 s2
      h hi1 hi2 ⟨hb1, hb2⟩ hs1 hs2 h6
  · intro chrom fit coin1 coin2 h hlen hn
    exact smartMutate_valid rows cols vipRows n attendees chrom fit coin1 coin2
      h hlen hn
  · intro chrom fit useTargeted i1 i2 h hlen hi1 hi2
    exact saNeighbor_valid rows cols vipRows n attendees chrom fit useTargeted
      i1 i2 h hlen hi1 hi2

theorem chromosome_invariant_all_operators_witness :
    ValidAssignment 2 4 6 (generateRandomChromosome 2 4 6 fun _ => 0) ∧
    ValidAssignmentInt 2 4 (List.replicate 6 regularAttendee).length
      (generateGreedySolution 2 4 1 (List.replicate 6 regularAttendee)) ∧
    (ValidAssignmentInt 2 4 6
        (crossover [0, 1, 2, 3, 4, 5] [5, 4, 3, 2, 1, 0] false 1 3).1 ∧
      ValidAssignmentInt 2 4 6
        (crossover [0, 1, 2, 3, 4, 5] [5, 4, 3, 2, 1, 0] false 1 3).2) ∧
    JsValid (2 * 4) 6
      (mutate (JsArr.mk [some 0, some 1, some 2, some 3, some 4, some 5] [])
        true 0 1 true 2 0 1) ∧
    ValidAssignment 2 4 6
      (smartMutate 2 4 1 (List.replicate 6 regularAttendee) [0, 1, 2, 3, 4, 5]
        ⟨0, 0, 0, 0, 0⟩ true true) ∧
    ValidAssignment 2 4 6
      (saNeighbor 2 4 1 (List.replicate 6 regularAttendee) [0, 1, 2, 3, 4, 5]
        ⟨0, 0, 0, 0, 0⟩ true 0 1) := by
  obtain ⟨h1, h2, h3, h4, h5, h6⟩ :=
    chromosome_invariant_all_operators 2 4 1 6 (List.replicate 6 regularAttendee)
  exact ⟨h1 (fun _ => 0) (fun k => Nat.zero_le k) (by decide),
    h2 (by decide),
    h3 [0, 1, 2, 3, 4, 5] [5, 4, 3, 2, 1, 0] false 1 3 (by decide) (by decide)
      (by decide) (by decide) (by decide),
    h4 (JsArr.mk [some 0, some 1, some 2, some 3, some 4, some 5] [])
      true 0 1 true 2 0 1 (by decide) (by decide) (by decide)
      (by decide) (by decide) (by decide) (by decide) (by decide),
    h5 [0, 1, 2, 3, 4, 5] ⟨0, 0, 0, 0, 0⟩ true true (by decide) (by decide)
      (by decide),
    h6 [0, 1, 2, 3, 4, 5] ⟨0, 0, 0, 0, 0⟩ true 0 1 (by decide) (by decide)
      (by decide) (by decide)⟩

end SeatOpt
